import Mathlib

/-!
Verification development for the CSSJanus stylesheet direction transformer
(src/cssjanus.js).  The JavaScript source is shallowly embedded over
`List Char`: JS strings become `List Char`, regex-replacement passes become
explicit scanning functions, JS objects keyed by numbers/strings become
update-chains of functions, and the handful of numeric operations are
modelled over `Nat`/`Int`/`ℚ` with the ECMAScript coercions (ToInt32 of
`undefined` is 0, `NaN !== NaN`, etc.) made explicit.  All recursive
definitions use structural recursion (explicit fuel where the source loops
on string positions) so that every definition evaluates by `decide`/`rfl`.
-/

namespace CssJanus

/-- Truthiness of a JS string value (`undefined` and the empty string are falsy). -/
def jsTruthy : Option (List Char) → Bool
  | none => false
  | some [] => false
  | some (_ :: _) => true

/-- JS `a || d` for an optional string option field: `undefined` and `""` fall back. -/
def jsOrStr (v : Option String) (d : String) : String :=
  match v with
  | none => d
  | some s => if s = "" then d else s

/-- ToInt32 coercion used implicitly by JS bitwise operators: `undefined` (and `NaN`)
coerce to 0; our ordinal values are small naturals. -/
def i32 (x : Option Nat) : Nat := x.getD 0

/-- JS strict inequality `!==` on numbers where `none` stands for `NaN`
(`NaN !== x` is always true, even for `x = NaN`). -/
def jsNeqNum (a b : Option Nat) : Bool :=
  match a, b with
  | some x, some y => x ≠ y
  | _, _ => true

/-- JS `(a + b) % 3` where either operand may be `undefined` (giving `NaN`). -/
def addMod3 (a b : Option Nat) : Option Nat :=
  match a, b with
  | some x, some y => some ((x + y) % 3)
  | _, _ => none

/-- JS `(a - b) & 3`: subtraction may go negative, `& 3` is ToInt32 followed by
a two's-complement mask, i.e. a euclidean `mod 4`; `NaN` coerces to 0. -/
def subAnd3 (a b : Option Nat) : Nat :=
  match a, b with
  | some x, some y => (((x : Int) - (y : Int)) % 4).toNat
  | _, _ => 0

/-- Digit characters of a natural number, most significant first (JS number-to-string
for the nonnegative integers used as token indices).  Fuel-structured so it reduces
in the kernel; `natDigits` supplies sufficient fuel. -/
def natDigitsAux : Nat → Nat → List Char
  | 0, _ => []
  | f + 1, n =>
    if n < 10 then [Char.ofNat (48 + n)]
    else natDigitsAux f (n / 10) ++ [Char.ofNat (48 + n % 10)]

/-- Decimal digit string of a natural number. -/
def natDigits (n : Nat) : List Char := natDigitsAux (n + 1) n

/-- Parse a digit string (most significant first) back to a natural number. -/
def digitsToNat (ds : List Char) : Nat :=
  ds.foldl (fun acc c => acc * 10 + (c.toNat - 48)) 0

/-- Whitespace characters skipped by JS `parseFloat`. -/
def isJsWs (c : Char) : Bool :=
  c = ' ' || c = '\t' || c = '\n' || c = '\r' || c = '\x0c' || c = '\x0b'

/-- Test corresponding to JS `parseFloat(value) === 0` (src/cssjanus.js line 326):
after optional whitespace and sign, a decimal significand must be present and all
of its digits must be `0`.  The exponent part cannot make a zero significand
nonzero; underflow of extreme nonzero significands to `0.0` is not modelled. -/
def parseFloatIsZero (v : List Char) : Bool :=
  let s := v.dropWhile isJsWs
  let s := match s with
    | '+' :: r => r
    | '-' :: r => r
    | _ => s
  let ip := s.takeWhile Char.isDigit
  let rest := s.drop ip.length
  let fp := match rest with
    | '.' :: r => r.takeWhile Char.isDigit
    | _ => []
  if ip = [] && fp = [] then false
  else (ip ++ fp).all (fun c => c = '0')

/-- Model of `flipSign` (src/cssjanus.js lines 325-336): flip the sign of a CSS
quantity, leaving exact zeroes alone. -/
def flipSign (value : List Char) : List Char :=
  if parseFloatIsZero value then
    value
  else
    match value with
    | '-' :: rest => rest
    | '+' :: rest => '-' :: rest
    | v => '-' :: v

/-- Model of `getPrecision` (src/cssjanus.js lines 289-293): number of characters
after the first `.` of the string. -/
def getPrecision (value : List Char) : Nat :=
  match value.findIdx? (fun c => c = '.') with
  | none => 0
  | some i => value.length - i - 1

/-- Parse a decimal numeric string to an exact rational, modelling JS string-to-number
coercion `100 - number` for the strings matched by the position patterns
(`[-+]? digits [. digits] [ (e|E) [-+]? digit ]`); `none` models `NaN`.
The empty string coerces to 0 as in JS. -/
def jsNumber (v : List Char) : Option ℚ :=
  let s := v.dropWhile isJsWs
  if s = [] then some 0 else
  let sgn : ℚ := match s with
    | '-' :: _ => -1
    | _ => 1
  let s := match s with
    | '+' :: r => r
    | '-' :: r => r
    | r => r
  let ip := s.takeWhile Char.isDigit
  let s1 := s.drop ip.length
  let fp : List Char := match s1 with
    | '.' :: r => r.takeWhile Char.isDigit
    | _ => []
  let s2 : List Char := match s1 with
    | '.' :: r => r.drop (r.takeWhile Char.isDigit).length
    | r => r
  if ip = [] && fp = [] then none else
  let mant : ℚ := (digitsToNat (ip ++ fp) : ℚ) / ((10 : ℚ) ^ fp.length)
  match s2 with
  | [] => some (sgn * mant)
  | e :: rest =>
    if e = 'e' || e = 'E' then
      let eneg : Bool := match rest with
        | '-' :: _ => true
        | _ => false
      let r := match rest with
        | '-' :: r => r
        | '+' :: r => r
        | r => r
      let ed := r.takeWhile Char.isDigit
      if ed = [] || r.drop ed.length ≠ [] then none
      else
        let ex : ℚ := (10 : ℚ) ^ digitsToNat ed
        some (if eneg then sgn * mant / ex else sgn * mant * ex)
    else none

/-- Render an integer the way JS renders integral numbers. -/
def intToStr (n : Int) : List Char :=
  if n < 0 then '-' :: natDigits n.natAbs else natDigits n.natAbs

/-- JS `Number.prototype.toFixed(p)` on an exact rational: round to `p` decimal
places (ties toward `+∞`, per the spec's "pick the larger n") and render with
exactly `p` digits after the point. -/
def toFixed (x : ℚ) (p : Nat) : List Char :=
  let scaled : Int := ((x * (10 : ℚ) ^ p) + 1 / 2).floor
  let sign : List Char := if scaled < 0 then ['-'] else []
  let a := scaled.natAbs
  if p = 0 then intToStr scaled
  else
    let ds := natDigits a
    let ds := if ds.length < p + 1 then List.replicate (p + 1 - ds.length) '0' ++ ds else ds
    sign ++ ds.take (ds.length - p) ++ '.' :: ds.drop (ds.length - p)

/-- Render a rational whose reduced denominator is a power of ten as a plain
decimal with no trailing zeros, matching JS default number formatting for the
values produced by `100 - number` on finite decimal input. -/
def ratToStr (x : ℚ) : List Char :=
  match (List.range 21).find? (fun p => (x * (10 : ℚ) ^ p).den = 1) with
  | some 0 => intToStr x.num
  | some p => toFixed x p
  | none => "NaN".data

/-- Model of `flipPositionValue` (src/cssjanus.js lines 302-314): complement a
percentage position value (`(100 - number).toFixed(precision)`); any value not
ending in `%` is returned unchanged. -/
def flipPositionValue (value : List Char) : List Char :=
  if value.getLast? = some '%' then
    let number := value.dropLast
    let precision := getPrecision number
    match jsNumber number with
    | none => "NaN".data ++ ['%']
    | some q =>
      if precision ≠ 0 then toFixed (100 - q) precision ++ ['%']
      else ratToStr (100 - q) ++ ['%']
  else value

/-- JS `dir.split('-')` on character lists. -/
def splitDash : List Char → List (List Char)
  | [] => [[]]
  | c :: r =>
    if c = '-' then [] :: splitDash r
    else
      match splitDash r with
      | h :: t => (c :: h) :: t
      | [] => [[c]]

/-- The `directions` ordinal table (src/cssjanus.js lines 105-110); unknown
tokens give `undefined`. -/
def dirOrd (s : List Char) : Option Nat :=
  if s = "tb".data then some 0
  else if s = "rl".data then some 1
  else if s = "bt".data then some 2
  else if s = "lr".data then some 3
  else none

/-- Model of `orientationArray` (src/cssjanus.js lines 276-280). -/
def orientationArray (dir : String) : List (Option Nat) :=
  (splitDash dir.data).map dirOrd

/-- JS `arr[i]` on the ordinal arrays: out of bounds gives `undefined`. -/
def jsIdx (a : List (Option Nat)) (i : Nat) : Option Nat :=
  (a.get? i).join

/-- Assignment to a JS object with numeric keys. -/
def jsSet (m : Nat → Option Nat) (k v : Nat) : Nat → Option Nat :=
  fun x => if x = k then some v else m x

/-- Freshly created empty JS object. -/
def jsEmpty : Nat → Option Nat := fun _ => none

/-- The derived transform descriptor: flags and side/corner maps. -/
structure Descriptor where
  dirFlipped : Bool
  quarterTurned : Bool
  cornersFlipped : Bool
  reflected : Bool
  sideMap : Nat → Option Nat
  cornersMap : Nat → Option Nat
  flipX : Bool
  flipY : Bool

/-- Orientation solver: the flag and map computations at the top of `transform`
(src/cssjanus.js lines 450-477), with ECMAScript coercions explicit (bitwise
operators apply ToInt32, so `undefined` behaves as 0 under `^`/`&`; `+` and `%`
produce `NaN` on `undefined`, and `NaN !== NaN`). -/
def solve (sourceDir targetDir : String) : Descriptor :=
  let source := orientationArray sourceDir
  let target := orientationArray targetDir
  let s0 := jsIdx source 0
  let s1 := jsIdx source 1
  let t0 := jsIdx target 0
  let t1 := jsIdx target 1
  let reflected := subAnd3 s0 s1 != subAnd3 t0 t1
  let idx := fun (a : List (Option Nat)) (i : Nat) => i32 (jsIdx a (i &&& 1)) ^^^ (i &&& 2)
  let maps := (List.range 4).foldl
    (fun (ms : (Nat → Option Nat) × (Nat → Option Nat)) i =>
      (jsSet ms.1 (idx target i) (idx source i),
       jsSet ms.2 (idx target i) ((idx source i + (if reflected then 1 else 0)) &&& 3)))
    (jsEmpty, jsEmpty)
  let map := maps.1
  { dirFlipped := (i32 s0 ^^^ i32 t0) % 3 != 0
    quarterTurned := (i32 s0 &&& 1) != (i32 t0 &&& 1)
    cornersFlipped := jsNeqNum (addMod3 s0 s1) (addMod3 t0 t1)
    reflected := reflected
    sideMap := map
    cornersMap := maps.2
    flipX := (map 3 == some 1) || (map 0 == some 1)
    flipY := (map 2 == some 0) || (map 1 == some 0) }

/-- Options object accepted by `transform`. -/
structure Options where
  transformDirInUrl : Bool := false
  transformEdgeInUrl : Bool := false
  sourceDir : Option String := none
  targetDir : Option String := none

/-- Model of the entry of `transform` (src/cssjanus.js lines 442-448): option
defaulting and the no-op short-circuit.  The rewrite pipeline that runs when the
directions differ is passed as a parameter; a concrete instantiation is built
further below. -/
def transform (pipeline : String → String → Options → List Char → List Char)
    (css : List Char) (options : Options) : List Char :=
  let sourceDir := jsOrStr options.sourceDir "lr-tb"
  let targetDir := jsOrStr options.targetDir "rl-tb"
  if sourceDir = targetDir then css
  else pipeline sourceDir targetDir options css

/-- The writing-direction specifiers named by the claim: inline token `lr|rl`
combined with block token `tb|bt`. -/
def horizSpecifiers : List String := ["lr-tb", "lr-bt", "rl-tb", "rl-bt"]

/-- A numeric-keyed JS map is a permutation of `{0,1,2,3}`: defined on all four
keys with values below 4, and injective there. -/
def IsPermOn4 (m : Nat → Option Nat) : Prop :=
  (∀ k : Fin 4, ∃ v : Fin 4, m k.val = some v.val) ∧
    ∀ j k : Fin 4, m j.val = m k.val → j = k

instance (m : Nat → Option Nat) : Decidable (IsPermOn4 m) := by
  unfold IsPermOn4; infer_instance

/-- C1: when the (defaulted) source direction equals the (defaulted) target
direction, `transform` returns the input stylesheet unchanged, for every
possible rewrite pipeline — the pipeline is never run. -/
theorem transform_identity_on_equal_dirs
    (pipeline : String → String → Options → List Char → List Char)
    (css : List Char) (options : Options)
    (h : jsOrStr options.sourceDir "lr-tb" = jsOrStr options.targetDir "rl-tb") :
    transform pipeline css options = css := by
  unfold transform
  simp [h]

/-- Witness for C1 at a concrete stylesheet and options with equal directions. -/
theorem transform_identity_on_equal_dirs_witness :
    jsOrStr (Options.mk false false (some "rl-tb") none).sourceDir "lr-tb" =
      jsOrStr (Options.mk false false (some "rl-tb") none).targetDir "rl-tb" ∧
    transform (fun _ _ _ _ => []) "a { left: 0 }".data
      (Options.mk false false (some "rl-tb") none) = "a { left: 0 }".data :=
  ⟨by decide, transform_identity_on_equal_dirs _ _ _ (by decide)⟩

/-- C5: for every pair of distinct valid writing-direction specifiers (inline
`lr|rl`, block `tb|bt`), the side map and corner map built by the orientation
solver are permutations of `{0,1,2,3}`. -/
theorem solve_maps_are_permutations (sd td : String)
    (hsd : sd ∈ horizSpecifiers) (htd : td ∈ horizSpecifiers) (hne : sd ≠ td) :
    IsPermOn4 (solve sd td).sideMap ∧ IsPermOn4 (solve sd td).cornersMap := by
  fin_cases hsd <;> fin_cases htd <;> first
    | exact absurd rfl hne
    | decide

/-- Witness for C5 at the default direction pair. -/
theorem solve_maps_are_permutations_witness :
    "lr-tb" ∈ horizSpecifiers ∧ "rl-tb" ∈ horizSpecifiers ∧ "lr-tb" ≠ "rl-tb" ∧
      (IsPermOn4 (solve "lr-tb" "rl-tb").sideMap ∧
        IsPermOn4 (solve "lr-tb" "rl-tb").cornersMap) :=
  ⟨by decide, by decide, by decide,
    solve_maps_are_permutations _ _ (by decide) (by decide) (by decide)⟩

/-- C9: `flipPositionValue` returns every value string that does not end in `%`
unchanged, so positional offsets in absolute units are never complemented. -/
theorem flipPositionValue_non_percent (v : List Char)
    (h : v.getLast? ≠ some '%') : flipPositionValue v = v := by
  unfold flipPositionValue
  rw [if_neg h]

/-- Witness for C9 at an absolute-unit offset. -/
theorem flipPositionValue_non_percent_witness :
    ("10px".data.getLast? ≠ some '%') ∧ flipPositionValue "10px".data = "10px".data :=
  ⟨by decide, flipPositionValue_non_percent _ (by decide)⟩

/-- C10: `flipSign` returns every quantity whose numeric part parses to zero
unchanged, so sign-flipping passes never rewrite a zero-valued quantity. -/
theorem flipSign_zero (v : List Char)
    (h : parseFloatIsZero v = true) : flipSign v = v := by
  unfold flipSign
  rw [if_pos h]

/-- Witness for C10 at the quantity `+0.0em`. -/
theorem flipSign_zero_witness :
    parseFloatIsZero "+0.0em".data = true ∧ flipSign "+0.0em".data = "+0.0em".data :=
  ⟨by decide, flipSign_zero _ (by decide)⟩

/-- Occurrence test: does `pat` occur as a contiguous substring? -/
def hasSub (pat : List Char) : List Char → Bool
  | [] => pat.isPrefixOf []
  | s@(_ :: rest) => pat.isPrefixOf s || hasSub pat rest

/-- JS `str.replace(searchString, replacement)` with a plain-string search value:
only the first occurrence is replaced. -/
def jsReplaceFirst (pat repl : List Char) : List Char → List Char
  | [] => if pat.isPrefixOf ([] : List Char) then repl else []
  | s@(c :: rest) =>
    if pat.isPrefixOf s then repl ++ s.drop pat.length
    else c :: jsReplaceFirst pat repl rest

/-- The backtick-escaping step of `transform` (src/cssjanus.js line 657):
`css.replace( '\x60', '%60' )`. -/
def backtickEscape (css : List Char) : List Char :=
  jsReplaceFirst "`".data "%60".data css

/-- C4 counterexample: with two backticks in the input, only the first is
percent-escaped; a literal backtick survives into tokenization, so the claim
that every backtick is escaped is false. -/
theorem backtickEscape_misses_second_backtick :
    backtickEscape "``".data = "%60`".data ∧
      hasSub "`".data (backtickEscape "``".data) = true := by
  constructor <;> decide

/-- C4 amended: only the first literal backtick occurrence is percent-escaped;
everything after it (including further backticks) is left unchanged. -/
theorem backtickEscape_first (a b : List Char)
    (ha : hasSub "`".data a = false) :
    backtickEscape (a ++ "`".data ++ b) = a ++ "%60".data ++ b := by
  induction a with
  | nil => simp [backtickEscape, jsReplaceFirst, List.isPrefixOf]
  | cons c a ih =>
    rw [hasSub] at ha
    rcases Bool.or_eq_false_iff.mp ha with ⟨h1, h2⟩
    have key := ih h2
    simp only [backtickEscape, List.append_assoc, List.cons_append] at key ⊢
    simp only [jsReplaceFirst]
    rw [if_neg (by simpa [List.isPrefixOf] using h1)]
    exact congrArg (c :: ·) key

/-- Witness for the amended C4 theorem: the first backtick of `x\x60y\x60z`
is escaped, the second is untouched. -/
theorem backtickEscape_first_witness :
    hasSub "`".data "x".data = false ∧
      backtickEscape ("x".data ++ "`".data ++ "y`z".data) =
        "x".data ++ "%60".data ++ "y`z".data :=
  ⟨by decide, backtickEscape_first _ _ (by decide)⟩

/-- Case-insensitive literal test used by the calc() scanner. -/
def ciPrefix (lit s : List Char) : Bool :=
  (s.take lit.length).map Char.toLower = lit

/-- Length of the `(?:-moz-|-webkit-)?calc\(` lookahead group when it matches at
the head of `s` (src/cssjanus.js line 601). -/
def calcPrefixLen (s : List Char) : Option Nat :=
  if ciPrefix "-moz-calc(".data s then some 10
  else if ciPrefix "-webkit-calc(".data s then some 13
  else if ciPrefix "calc(".data s then some 5
  else none

/-- Balanced-parenthesis scan of the calc() tokenizer (src/cssjanus.js lines
608-627): by `indexOf` comparison, descend on `(`, ascend on `)`, and return the
consumed length when the depth reaches zero; `none` models the unclosed-calc
abort branch. -/
def balancedScanAux : Nat → List Char → Nat → Option Nat
  | 0, _, _ => none
  | f + 1, s, depth =>
    let no := s.findIdx? (fun c => c = '(')
    let nc := s.findIdx? (fun c => c = ')')
    match no, nc with
    | some o, some c =>
      if o < c then (balancedScanAux f (s.drop (o + 1)) (depth + 1)).map (fun k => o + 1 + k)
      else if depth = 1 then some (c + 1)
      else (balancedScanAux f (s.drop (c + 1)) (depth - 1)).map (fun k => c + 1 + k)
    | none, some c =>
      if depth = 1 then some (c + 1)
      else (balancedScanAux f (s.drop (c + 1)) (depth - 1)).map (fun k => c + 1 + k)
    | _, none => none

/-- Model of `calcTokenizer.tokenize` (src/cssjanus.js lines 595-635): scan for
calc( occurrences, consume to the balancing close paren, or — on the unclosed
abort branch — set `lastBracket = css.length`, so the token swallows the entire
rest of the input.  Returns the tokenized text and the recorded matches. -/
def calcTokenizeAux : Nat → List Char → List (List Char) → List Char × List (List Char)
  | 0, s, ms => (s, ms)
  | _ + 1, [], ms => ([], ms)
  | f + 1, s@(c :: rest), ms =>
    match calcPrefixLen s with
    | none =>
      let r := calcTokenizeAux f rest ms
      (c :: r.1, r.2)
    | some pl =>
      let consumed := match balancedScanAux s.length (s.drop pl) 1 with
        | some k => pl + k
        | none => s.length
      let content := s.take consumed
      let tok := "`CALC".data ++ natDigits ms.length ++ [Char.ofNat 96]
      let r := calcTokenizeAux f (s.drop consumed) (ms ++ [content])
      (tok ++ r.1, r.2)

/-- Entry point of the calc() tokenizer model. -/
def calcTokenize (s : List Char) : List Char × List (List Char) :=
  calcTokenizeAux (s.length + 1) s []

/-- Alternatives of `unitPattern` (src/cssjanus.js line 120), in source order. -/
def unitAlts : List (List Char) :=
  ["em".data, "ex".data, "px".data, "cm".data, "mm".data, "in".data, "pt".data,
    "pc".data, "q".data, "rem".data, "ch".data, "vh".data, "vw".data, "vmax".data,
    "vmin".data, "deg".data, "rad".data, "grad".data, "ms".data, "s".data,
    "hz".data, "khz".data, "%".data]

/-- Match `unitPattern` at the head of `s`: the first (in alternation order)
case-insensitive unit literal whose following character is not a letter
(the `(?![a-z])` lookahead under the `i` flag). -/
def matchUnit (s : List Char) : Option Nat :=
  unitAlts.findSome? fun u =>
    if ciPrefix u s then
      match s.drop u.length with
      | [] => some u.length
      | c :: _ => if c.isAlpha then none else some u.length
    else none

/-- Match the optional exponent group `(?:[eE][-+]?[0-9+])?` of `numPattern`
when present at the head of `s` (note the source's `[0-9+]` matches a single
digit-or-plus character); the sign branch backtracks like the regex does. -/
def matchExp (s : List Char) : Option Nat :=
  match s with
  | e :: rest =>
    if e = 'e' || e = 'E' then
      (match rest with
        | c :: d :: _ =>
          if (c = '-' || c = '+') && (d.isDigit || d = '+') then some 3 else none
        | _ => none) <|>
      (match rest with
        | c :: _ => if c.isDigit || c = '+' then some 2 else none
        | [] => none)
    else none
  | [] => none

/-- Match the first `numPattern` alternative `[0-9]*\.[0-9]+` at the head of `s`. -/
def matchNumDot (s : List Char) : Option Nat :=
  let ds := s.takeWhile Char.isDigit
  match s.drop ds.length with
  | '.' :: r =>
    let fs := r.takeWhile Char.isDigit
    if fs = [] then none else some (ds.length + 1 + fs.length)
  | _ => none

/-- Match the second `numPattern` alternative `[0-9]+` at the head of `s`. -/
def matchNumInt (s : List Char) : Option Nat :=
  let ds := s.takeWhile Char.isDigit
  if ds = [] then none else some ds.length

/-- Match `quantPlainUnitRegex` = `[-+]?` `numPattern` `unitPattern`
(src/cssjanus.js line 188) at the head of `s`, with the regex's ordered
alternation and optional-group backtracking. -/
def quantUnitMatch (s : List Char) : Option Nat :=
  let tail := fun (t : List Char) =>
    (do
      let el ← matchExp t
      let ul ← matchUnit (t.drop el)
      pure (el + ul)) <|> matchUnit t
  let core := fun (t : List Char) (off : Nat) =>
    (do
      let nl ← matchNumDot t
      let tl ← tail (t.drop nl)
      pure (off + nl + tl)) <|>
    (do
      let nl ← matchNumInt t
      let tl ← tail (t.drop nl)
      pure (off + nl + tl))
  match s with
  | c :: rest => if c = '-' || c = '+' then core rest 1 else core s 0
  | [] => none

/-- JS `str.replace(regex, fn)` over an abstract at-position matcher: scan left
to right, replace each (leftmost, non-overlapping) match by the callback result;
an empty match emits the callback result and advances one character. -/
def replaceScanAux (matcher : List Char → Option Nat) (cb : List Char → List Char) :
    Nat → List Char → List Char
  | 0, s => s
  | _ + 1, [] => []
  | f + 1, s@(c :: rest) =>
    match matcher s with
    | some (n + 1) => cb (s.take (n + 1)) ++ replaceScanAux matcher cb f (s.drop (n + 1))
    | some 0 => cb [] ++ c :: replaceScanAux matcher cb f rest
    | none => c :: replaceScanAux matcher cb f rest

/-- JS `str.replace(regex, fn)` with sufficient fuel. -/
def jsReplaceCb (matcher : List Char → Option Nat) (cb : List Char → List Char)
    (s : List Char) : List Char :=
  replaceScanAux matcher cb (s.length + 1) s

/-- The `calc.replace( quantPlainUnitRegex, flipSign )` step of
`calcTokenizer.detokenize` (src/cssjanus.js line 642). -/
def flipQuants (s : List Char) : List Char :=
  jsReplaceCb quantUnitMatch flipSign s

/-- The token prefix of `calcToken` = `` `CALC\d+` ``. -/
def calcTokStart : List Char := "`CALC".data

/-- Match `` `CALC(\d+)` `` at the head of `s`, returning the captured index and
the match length. -/
def calcTokAt (s : List Char) : Option (Nat × Nat) :=
  if calcTokStart.isPrefixOf s then
    let r := s.drop 5
    let ds := r.takeWhile Char.isDigit
    if ds = [] then none
    else
      match r.drop ds.length with
      | c :: _ =>
        if c = Char.ofNat 96 then some (digitsToNat ds, 5 + ds.length + 1) else none
      | [] => none
  else none

/-- Model of `calcTokenizer.detokenize` (src/cssjanus.js lines 636-647):
replace each `(-?)` `` `CALC(\d+)` `` match by the recorded expression, flipping
every plain-unit quantity inside it when the leading minus was captured. -/
def calcDetokAux (ms : List (List Char)) : Nat → List Char → List Char
  | 0, s => s
  | _ + 1, [] => []
  | f + 1, s@(c :: rest) =>
    let hit : Option (Bool × Nat × Nat) :=
      match (if c = '-' then calcTokAt rest else none) with
      | some (i, l) => some (true, i, l + 1)
      | none =>
        match calcTokAt s with
        | some (i, l) => some (false, i, l)
        | none => none
    match hit with
    | some (neg, i, l) =>
      let calcVal := ms.getD i "undefined".data
      let calcVal := if neg then flipQuants calcVal else calcVal
      calcVal ++ calcDetokAux ms f (s.drop l)
    | none => c :: calcDetokAux ms f rest

/-- Entry point of the calc() detokenizer model. -/
def calcDetokenize (ms : List (List Char)) (s : List Char) : List Char :=
  calcDetokAux ms (s.length + 1) s

/-- C3: at an unclosed `calc(`, the tokenizer does not leave the literal text in
place — it swallows the entire rest of the input into the protected token
(`lastBracket = css.length`), and detokenization restores it verbatim, so the
`left: 0` declaration after the unclosed calc( is never rewritten, contradicting
the claim that the rest of the input still goes through the pipeline. -/
theorem calc_unclosed_swallows_rest :
    calcTokenize "width:calc(5px;left:0;".data =
      ("width:`CALC0`".data, ["calc(5px;left:0;".data]) ∧
    calcDetokenize ["calc(5px;left:0;".data] "width:`CALC0`".data =
      "width:calc(5px;left:0;".data := by
  constructor <;> decide

theorem isDigit_ofNat_add (d : Nat) (h : d < 10) : (Char.ofNat (48 + d)).isDigit = true := by
  interval_cases d <;> decide

theorem toNat_ofNat_add (d : Nat) (h : d < 10) : (Char.ofNat (48 + d)).toNat - 48 = d := by
  interval_cases d <;> decide

theorem natDigitsAux_spec :
    ∀ f n, n < f →
      (natDigitsAux f n).all Char.isDigit = true ∧ natDigitsAux f n ≠ [] ∧
        digitsToNat (natDigitsAux f n) = n := by
  intro f
  induction f with
  | zero => intro n h; omega
  | succ f ih =>
    intro n h
    rw [natDigitsAux]
    by_cases h10 : n < 10
    · rw [if_pos h10]
      refine ⟨by simp [isDigit_ofNat_add n h10], by simp, ?_⟩
      simp [digitsToNat, toNat_ofNat_add n h10]
    · rw [if_neg h10]
      have hn : n / 10 < f := by
        have := Nat.div_lt_self (by omega : 0 < n) (by omega : 1 < 10)
        omega
      obtain ⟨hall, hne, hval⟩ := ih (n / 10) hn
      have hm : n % 10 < 10 := Nat.mod_lt n (by omega)
      refine ⟨?_, by simp, ?_⟩
      · rw [List.all_append, hall]
        simp [isDigit_ofNat_add _ hm]
      · rw [digitsToNat, List.foldl_append]
        rw [digitsToNat] at hval
        simp only [List.foldl_cons, List.foldl_nil, hval, toNat_ofNat_add _ hm]
        omega

theorem natDigits_spec (n : Nat) :
    (natDigits n).all Char.isDigit = true ∧ natDigits n ≠ [] ∧
      digitsToNat (natDigits n) = n :=
  natDigitsAux_spec (n + 1) n (by omega)

theorem takeWhile_append_of_all {p : Char → Bool} :
    ∀ {xs : List Char} (ys : List Char), xs.all p = true →
      (xs ++ ys).takeWhile p = xs ++ ys.takeWhile p := by
  intro xs
  induction xs with
  | nil => intro ys _; simp
  | cons c xs ih =>
    intro ys h
    rw [List.all_cons, Bool.and_eq_true] at h
    simp only [List.cons_append, List.takeWhile_cons, h.1, if_true]
    rw [ih ys h.2]

/-- Rendering of the calc token `` `CALC<i>` `` inserted by the tokenizer. -/
def calcTokRender (i : Nat) : List Char :=
  calcTokStart ++ natDigits i ++ [Char.ofNat 96]

theorem calcTokStart_eq : calcTokStart = Char.ofNat 96 :: "CALC".data := by decide

theorem calcTokAt_render (i : Nat) (rest : List Char) :
    calcTokAt (calcTokRender i ++ rest) = some (i, (calcTokRender i).length) := by
  obtain ⟨hall, hne, hval⟩ := natDigits_spec i
  have hpre : calcTokStart.isPrefixOf (calcTokRender i ++ rest) = true := by
    rw [List.isPrefixOf_iff_prefix, calcTokRender]
    simp only [List.append_assoc]
    exact List.prefix_append _ _
  have hdrop : (calcTokRender i ++ rest).drop 5 = natDigits i ++ ([Char.ofNat 96] ++ rest) := by
    have h5 : calcTokStart.length = 5 := by decide
    rw [calcTokRender]
    simp only [List.append_assoc, ← h5, List.drop_left]
  have htake : (natDigits i ++ ([Char.ofNat 96] ++ rest)).takeWhile Char.isDigit =
      natDigits i := by
    rw [takeWhile_append_of_all _ hall]
    simp [List.takeWhile_cons]
  have hdrop2 : (natDigits i ++ ([Char.ofNat 96] ++ rest)).drop (natDigits i).length =
      Char.ofNat 96 :: rest := by
    rw [List.drop_left]
    simp
  have hlen : (calcTokRender i).length = 5 + (natDigits i).length + 1 := by
    rw [calcTokRender]
    have h5 : calcTokStart.length = 5 := by decide
    simp [List.length_append, h5]
    omega
  rw [calcTokAt, if_pos hpre, hdrop]
  simp only [htake]
  rw [if_neg hne, hdrop2]
  simp only [if_pos rfl, hval, hlen]
  simp

theorem calcTokAt_none_of_head (s : List Char) (h : s.head? ≠ some (Char.ofNat 96)) :
    calcTokAt s = none := by
  rw [calcTokAt, if_neg]
  intro hpre
  rw [List.isPrefixOf_iff_prefix] at hpre
  obtain ⟨t, ht⟩ := hpre
  rw [calcTokStart_eq] at ht
  cases s with
  | nil => simp at ht
  | cons c r =>
    rw [List.cons_append] at ht
    injection ht with h1 _
    exact h (by rw [List.head?_cons, h1])

/-- Absence of the backtick token delimiter. -/
def noBt (s : List Char) : Bool := s.all (fun c => c != Char.ofNat 96)

theorem calcDetokAux_id_of_noBt (ms : List (List Char)) :
    ∀ f s, s.length < f → noBt s = true → calcDetokAux ms f s = s := by
  intro f
  induction f with
  | zero => intro s h; omega
  | succ f ih =>
    intro s hlen hbt
    cases s with
    | nil => rw [calcDetokAux]
    | cons c rest =>
      rw [noBt, List.all_cons, Bool.and_eq_true] at hbt
      have hc : c ≠ Char.ofNat 96 := by simpa using hbt.1
      have hrest : noBt rest = true := hbt.2
      have h1 : calcTokAt (c :: rest) = none :=
        calcTokAt_none_of_head _ (by simp [hc])
      have h2 : calcTokAt rest = none := by
        apply calcTokAt_none_of_head
        cases rest with
        | nil => simp
        | cons d r =>
          rw [noBt, List.all_cons, Bool.and_eq_true] at hrest
          simpa using hrest.1
      rw [calcDetokAux]
      simp only [h1, h2, ite_self]
      exact congrArg (c :: ·) (ih rest (by simpa using Nat.lt_of_succ_lt_succ hlen) hbt.2)

theorem calcTokRender_length (i : Nat) :
    (calcTokRender i).length = 5 + (natDigits i).length + 1 := by
  rw [calcTokRender]
  have h5 : calcTokStart.length = 5 := by decide
  simp [List.length_append, h5]
  omega

theorem calcTokRender_length_ge (i : Nat) : 7 ≤ (calcTokRender i).length := by
  rw [calcTokRender_length]
  obtain ⟨-, hne, -⟩ := natDigits_spec i
  have : 1 ≤ (natDigits i).length := List.length_pos.mpr hne
  omega

theorem calcDetokAux_skip (ms : List (List Char)) (X : List Char) :
    ∀ p f, p.length + X.length < f → noBt p = true →
      (p.getLast? = some '-' → calcTokAt X = none) →
      calcDetokAux ms f (p ++ X) = p ++ calcDetokAux ms (f - p.length) X := by
  intro p
  induction p with
  | nil => intro f _ _ _; simp
  | cons c p ih =>
    intro f hf hbt hsafe
    cases f with
    | zero => simp at hf
    | succ f =>
      rw [noBt, List.all_cons, Bool.and_eq_true] at hbt
      have hc : c ≠ Char.ofNat 96 := by simpa using hbt.1
      have h1 : calcTokAt (c :: (p ++ X)) = none :=
        calcTokAt_none_of_head _ (by simp [hc])
      have hstep : calcDetokAux ms (f + 1) ((c :: p) ++ X) =
          c :: calcDetokAux ms f (p ++ X) := by
        rw [List.cons_append, calcDetokAux]
        by_cases hcm : c = '-'
        · have h2 : calcTokAt (p ++ X) = none := by
            cases p with
            | nil =>
              simpa using hsafe (by simp [hcm])
            | cons d q =>
              apply calcTokAt_none_of_head
              have hd : d ≠ Char.ofNat 96 := by
                have hq := hbt.2
                rw [List.all_cons, Bool.and_eq_true] at hq
                simpa using hq.1
              simp [hd]
          simp only [if_pos hcm, h2, h1]
        · simp only [if_neg hcm, h1]
      have hsafe2 : p.getLast? = some '-' → calcTokAt X = none := by
        intro h
        apply hsafe
        cases p with
        | nil => simp at h
        | cons d q => rw [List.getLast?_cons_cons]; exact h
      have hfuel : (f + 1) - (c :: p).length = f - p.length := by
        simp [Nat.succ_sub_succ]
      rw [hstep, hfuel, List.cons_append]
      exact congrArg (c :: ·) (ih f (by simp at hf; omega) hbt.2 hsafe2)

theorem calcDetokAux_at_minus (ms : List (List Char)) (i : Nat) (content post : List Char)
    (hms : ms.getD i "undefined".data = content) (hpost : noBt post = true) :
    ∀ f, ('-' :: (calcTokRender i ++ post)).length ≤ f →
      calcDetokAux ms f ('-' :: (calcTokRender i ++ post)) = flipQuants content ++ post := by
  intro f hf
  cases f with
  | zero => simp at hf
  | succ f =>
    rw [calcDetokAux]
    have htok := calcTokAt_render i post
    have hdrop : ('-' :: (calcTokRender i ++ post)).drop ((calcTokRender i).length + 1) =
        post := by
      rw [List.drop_succ_cons, List.drop_left]
    have hrec : calcDetokAux ms f post = post := by
      apply calcDetokAux_id_of_noBt ms f post ?_ hpost
      have h7 := calcTokRender_length_ge i
      rw [List.length_cons, List.length_append] at hf
      omega
    have hms2 : ms[i]?.getD "undefined".data = content := by
      simpa [List.getD] using hms
    simp [htok, hms2, hdrop, hrec]

theorem calcDetokAux_at_tok (ms : List (List Char)) (i : Nat) (content post : List Char)
    (hms : ms.getD i "undefined".data = content) (hpost : noBt post = true) :
    ∀ f, (calcTokRender i ++ post).length ≤ f →
      calcDetokAux ms f (calcTokRender i ++ post) = content ++ post := by
  intro f hf
  have hshape : calcTokRender i ++ post =
      Char.ofNat 96 :: ("CALC".data ++ (natDigits i ++ ([Char.ofNat 96] ++ post))) := by
    rw [calcTokRender, calcTokStart_eq]
    simp [List.append_assoc]
  cases f with
  | zero =>
    have h7 := calcTokRender_length_ge i
    rw [List.length_append] at hf
    omega
  | succ f =>
    rw [hshape, calcDetokAux]
    have hne : ¬ (Char.ofNat 96 = '-') := by decide
    have htok := calcTokAt_render i post
    rw [← hshape]
    have hdrop : (calcTokRender i ++ post).drop (calcTokRender i).length = post :=
      List.drop_left _ _
    have hrec : calcDetokAux ms f post = post := by
      apply calcDetokAux_id_of_noBt ms f post ?_ hpost
      have h7 := calcTokRender_length_ge i
      rw [List.length_append] at hf
      omega
    have hms2 : ms[i]?.getD "undefined".data = content := by
      simpa [List.getD] using hms
    simp [if_neg hne, htok, hms2, hdrop, hrec]

/-- C6: on detokenization of a protected calc() span in a delimiter-free context,
a placeholder immediately preceded by a unary minus is restored with every plain
numeric+unit quantity inside the recorded expression sign-flipped and the minus
dropped; without the minus the span is restored exactly as recorded. -/
theorem calcDetokenize_restores (pre post content : List Char) (i : Nat)
    (ms : List (List Char))
    (hms : ms.getD i "undefined".data = content)
    (hpre : noBt pre = true) (hpost : noBt post = true) :
    calcDetokenize ms (pre ++ '-' :: (calcTokRender i ++ post)) =
      pre ++ flipQuants content ++ post ∧
    (pre.getLast? ≠ some '-' →
      calcDetokenize ms (pre ++ calcTokRender i ++ post) = pre ++ content ++ post) := by
  constructor
  · rw [calcDetokenize]
    have hskip := calcDetokAux_skip ms ('-' :: (calcTokRender i ++ post)) pre
      ((pre ++ '-' :: (calcTokRender i ++ post)).length + 1)
      (by simp [List.length_append])
      hpre
      (fun _ => calcTokAt_none_of_head _ (by simp))
    rw [hskip]
    have hfuel : (pre ++ '-' :: (calcTokRender i ++ post)).length + 1 - pre.length =
        ('-' :: (calcTokRender i ++ post)).length + 1 := by
      simp [List.length_append]
      omega
    rw [hfuel, calcDetokAux_at_minus ms i content post hms hpost _ (by omega),
      List.append_assoc]
  · intro hlast
    rw [calcDetokenize, List.append_assoc]
    have hskip := calcDetokAux_skip ms (calcTokRender i ++ post) pre
      ((pre ++ (calcTokRender i ++ post)).length + 1)
      (by simp [List.length_append])
      hpre
      (fun h => absurd h hlast)
    rw [hskip]
    have hfuel : (pre ++ (calcTokRender i ++ post)).length + 1 - pre.length =
        (calcTokRender i ++ post).length + 1 := by
      simp [List.length_append]
      omega
    rw [hfuel, calcDetokAux_at_tok ms i content post hms hpost _ (by omega),
      List.append_assoc]

/-- Witness for C6 with a concrete recorded `calc(1px)` expression between a
property prefix and a semicolon. -/
theorem calcDetokenize_restores_witness :
    (["calc(1px)".data].getD 0 "undefined".data = "calc(1px)".data) ∧
    noBt "x: ".data = true ∧ noBt ";".data = true ∧
    (calcDetokenize ["calc(1px)".data]
        ("x: ".data ++ '-' :: (calcTokRender 0 ++ ";".data)) =
      "x: ".data ++ flipQuants "calc(1px)".data ++ ";".data ∧
    ("x: ".data.getLast? ≠ some '-' →
      calcDetokenize ["calc(1px)".data] ("x: ".data ++ calcTokRender 0 ++ ";".data) =
        "x: ".data ++ "calc(1px)".data ++ ";".data)) :=
  ⟨by decide, by decide, by decide,
    calcDetokenize_restores _ _ _ 0 _ (by decide) (by decide) (by decide)⟩

/-- Model of `Tokenizer(regex, token).tokenize` (src/cssjanus.js lines 27-67):
the regex is abstracted as an at-position matcher `m` returning the length of
the match starting at the scan position (JS `replace` takes the leftmost match,
i.e. the first position where the regex matches).  Each match is pushed onto the
`matches` array and replaced by `tokenStart ++ index ++ tokenEnd` with the
1-based index; an empty match inserts a token and advances one character.
Returns the tokenized text and the recorded matches. -/
def tokenizeAux (m : List Char → Option Nat) (ts te : List Char) :
    Nat → List Char → List (List Char) → List Char × List (List Char)
  | 0, s, ms => (s, ms)
  | _ + 1, [], ms => ([], ms)
  | f + 1, s@(c :: rest), ms =>
    match m s with
    | some (n + 1) =>
      let matched := s.take (n + 1)
      let tok := ts ++ natDigits (ms.length + 1) ++ te
      let r := tokenizeAux m ts te f (s.drop (n + 1)) (ms ++ [matched])
      (tok ++ r.1, r.2)
    | some 0 =>
      let tok := ts ++ natDigits (ms.length + 1) ++ te
      let r := tokenizeAux m ts te f rest (ms ++ [[]])
      (tok ++ c :: r.1, r.2)
    | none =>
      let r := tokenizeAux m ts te f rest ms
      (c :: r.1, r.2)

/-- Run a protective tokenizer on a whole input. -/
def tokenizerRun (m : List Char → Option Nat) (ts te s : List Char) :
    List Char × List (List Char) :=
  tokenizeAux m ts te (s.length + 1) s []

/-- Match the detokenizer regex `tokenStart(\d+)tokenEnd` at the head of `s`,
returning the captured index and the match length ( `\d+` is greedy, and none of
the instances' `tokenEnd` starts with a digit). -/
def detokTokAt (ts te s : List Char) : Option (Nat × Nat) :=
  if ts.isPrefixOf s then
    let r := s.drop ts.length
    let ds := r.takeWhile Char.isDigit
    if ds = [] then none
    else if te.isPrefixOf (r.drop ds.length) then
      some (digitsToNat ds, ts.length + ds.length + te.length)
    else none
  else none

/-- Model of `Tokenizer(regex, token).detokenize` (src/cssjanus.js lines 75-78):
replace each `tokenStart(\d+)tokenEnd` match by `matches[index - 1]`
(out-of-range indices give JS `undefined`, stringified by `replace`). -/
def detokenizeAux (ts te : List Char) (ms : List (List Char)) : Nat → List Char → List Char
  | 0, s => s
  | _ + 1, [] => []
  | f + 1, s@(c :: rest) =>
    match detokTokAt ts te s with
    | some (i, l) => ms.getD (i - 1) "undefined".data ++ detokenizeAux ts te ms f (s.drop l)
    | none => c :: detokenizeAux ts te ms f rest

/-- Run a protective detokenizer on a whole input. -/
def tokenizerDetok (ts te : List Char) (ms : List (List Char)) (s : List Char) : List Char :=
  detokenizeAux ts te ms (s.length + 1) s

/-- The three protective tokenizer instances of `transform` (src/cssjanus.js
lines 112-114, 464-466): token start and end delimiters obtained by splitting
the token template on `\d+`. -/
def protTokens : List (List Char × List Char) :=
  [("`NOFLIP_SINGLE".data, "`".data),
    ("`NOFLIP_CLASS".data, "`".data),
    ("`COMMENT".data, "`".data)]

/-- Index of the first `*/` in a character list. -/
def starSlashIdx : List Char → Option Nat
  | '*' :: '/' :: _ => some 0
  | _ :: rest => (starSlashIdx rest).map (· + 1)
  | [] => none

/-- At-position matcher for `commentPattern` =
`\/\*[^*]*\*+([^\/*][^*]*\*+)*\/` (src/cssjanus.js line 133): a `/*` followed
by the closest later `*/` (the pattern admits no other match end), failing on an
unterminated comment. -/
def commentMatchAt (s : List Char) : Option Nat :=
  match s with
  | '/' :: '*' :: rest => (starSlashIdx rest).map (fun i => i + 4)
  | _ => none

/-- Pre-existing placeholder syntax: some position matches `tokenStart(\d+)tokenEnd`. -/
def hasPlaceholder (ts te : List Char) : List Char → Bool
  | [] => false
  | s@(_ :: rest) => (detokTokAt ts te s).isSome || hasPlaceholder ts te rest

/-- C2 counterexample: the input `` `COMMENT7/**/ `` contains no pre-existing
placeholder syntax (no placeholder is complete), yet the comment tokenizer's
round trip corrupts it: the inserted token's opening backtick completes the
stray `` `COMMENT7 `` marker, and detokenize replaces it with the stringified
JS `undefined`. -/
theorem comment_tokenizer_roundtrip_fails :
    hasPlaceholder "`COMMENT".data "`".data "`COMMENT7/**/".data = false ∧
    tokenizerDetok "`COMMENT".data "`".data
        (tokenizerRun commentMatchAt "`COMMENT".data "`".data "`COMMENT7/**/".data).2
        (tokenizerRun commentMatchAt "`COMMENT".data "`".data "`COMMENT7/**/".data).1 =
      "undefinedCOMMENT1`".data ∧
    tokenizerDetok "`COMMENT".data "`".data
        (tokenizerRun commentMatchAt "`COMMENT".data "`".data "`COMMENT7/**/".data).2
        (tokenizerRun commentMatchAt "`COMMENT".data "`".data "`COMMENT7/**/".data).1 ≠
      "`COMMENT7/**/".data := by
  refine ⟨by decide, by decide, by decide⟩

/-- Interleaving structure of a tokenized string: original characters and
protected token contents, in order. -/
inductive TokItem where
  | chr (c : Char)
  | tok (content : List Char)

/-- Render items as the tokenized text, numbering tokens from `base + 1`. -/
def flattenItems (ts te : List Char) : Nat → List TokItem → List Char
  | _, [] => []
  | base, .chr c :: r => c :: flattenItems ts te base r
  | base, .tok _ :: r => (ts ++ natDigits (base + 1) ++ te) ++ flattenItems ts te (base + 1) r

/-- The recorded match contents of an item list. -/
def itemsContents : List TokItem → List (List Char)
  | [] => []
  | .chr _ :: r => itemsContents r
  | .tok cs :: r => cs :: itemsContents r

/-- The original text an item list stands for. -/
def itemsOrig : List TokItem → List Char
  | [] => []
  | .chr c :: r => c :: itemsOrig r
  | .tok cs :: r => cs ++ itemsOrig r

/-- The leading run of plain characters of an item list. -/
def itemsRun : List TokItem → List Char
  | [] => []
  | .chr c :: r => c :: itemsRun r
  | .tok _ :: _ => []

/-- At every plain-character position of the rendered text, the token-start
marker is not a prefix (so detokenization cannot misfire there). -/
def GoodItems (ts te : List Char) : Nat → List TokItem → Prop
  | _, [] => True
  | base, .chr c :: r =>
    ts.isPrefixOf (c :: flattenItems ts te base r) = false ∧ GoodItems ts te base r
  | base, .tok _ :: r => GoodItems ts te (base + 1) r

/-- The token-start marker has no nontrivial border (no proper suffix of it is
also a prefix). -/
def noBorderB (ts : List Char) : Bool :=
  (List.range ts.length).all fun k => k == 0 || !((ts.drop k).isPrefixOf ts)

theorem noBorderB_spec {ts : List Char} (h : noBorderB ts = true) :
    ∀ k, 0 < k → k < ts.length → (ts.drop k).isPrefixOf ts = false := by
  intro k hk hlt
  have hall := List.all_eq_true.mp h k (List.mem_range.mpr hlt)
  rcases Bool.or_eq_true_iff.mp hall with h0 | hp
  · simp at h0; omega
  · simpa using hp

theorem hasSub_of_isPrefixOf {p s : List Char} (h : p.isPrefixOf s = true) :
    hasSub p s = true := by
  cases s with
  | nil => rw [hasSub]; exact h
  | cons c r => rw [hasSub, h, Bool.true_or]

theorem hasSub_tail {p : List Char} {c : Char} {r : List Char}
    (h : hasSub p (c :: r) = false) : hasSub p r = false := by
  rw [hasSub] at h
  exact (Bool.or_eq_false_iff.mp h).2

theorem hasSub_drop {p s : List Char} (h : hasSub p s = false) :
    ∀ n, hasSub p (s.drop n) = false := by
  induction s with
  | nil => intro n; simpa [List.drop_nil] using h
  | cons c r ih =>
    intro n
    cases n with
    | zero => exact h
    | succ n => exact ih (hasSub_tail h) n

theorem itemsRun_prefix : ∀ items, itemsRun items <+: itemsOrig items := by
  intro items
  induction items with
  | nil => exact List.nil_prefix
  | cons it r ih =>
    cases it with
    | chr c => rw [itemsRun, itemsOrig]; exact List.cons_prefix_cons.mpr ⟨rfl, ih⟩
    | tok cs => rw [itemsRun]; exact List.nil_prefix

theorem flattenItems_run (ts te : List Char) :
    ∀ items base, flattenItems ts te base items = itemsRun items ∨
      ∃ z, flattenItems ts te base items = itemsRun items ++ (ts ++ z) := by
  intro items
  induction items with
  | nil => intro _; left; rfl
  | cons it r ih =>
    intro base
    cases it with
    | chr c =>
      rcases ih base with h | ⟨z, h⟩
      · left; rw [flattenItems, itemsRun, h]
      · right; exact ⟨z, by rw [flattenItems, itemsRun, h, List.cons_append]⟩
    | tok cs =>
      right
      refine ⟨natDigits (base + 1) ++ te ++ flattenItems ts te (base + 1) r, ?_⟩
      rw [flattenItems, itemsRun]
      simp [List.append_assoc]

theorem ts_not_prefix_of_chr (ts te : List Char)
    (hnb : ∀ k, 0 < k → k < ts.length → (ts.drop k).isPrefixOf ts = false)
    (c : Char) (items : List TokItem) (base : Nat)
    (hno : hasSub ts (c :: itemsOrig items) = false) :
    ts.isPrefixOf (c :: flattenItems ts te base items) = false := by
  by_contra hcon
  rw [Bool.not_eq_false, List.isPrefixOf_iff_prefix] at hcon
  have hrunpre : (c :: itemsRun items) <+: (c :: itemsOrig items) :=
    List.cons_prefix_cons.mpr ⟨rfl, itemsRun_prefix items⟩
  have absub : ts <+: (c :: itemsOrig items) → False := by
    intro hp
    rw [← List.isPrefixOf_iff_prefix] at hp
    rw [hasSub_of_isPrefixOf hp] at hno
    exact Bool.true_eq_false ▸ hno
  rcases flattenItems_run ts te items base with hfl | ⟨z, hfl⟩
  · rw [hfl] at hcon
    exact absub (hcon.trans hrunpre)
  · rw [hfl] at hcon
    rw [show c :: (itemsRun items ++ (ts ++ z)) =
      (c :: itemsRun items) ++ (ts ++ z) from rfl] at hcon
    by_cases hlen : ts.length ≤ (c :: itemsRun items).length
    · have : ts <+: (c :: itemsRun items) := by
        rw [List.prefix_iff_eq_take] at hcon ⊢
        rw [List.take_append_of_le_length hlen] at hcon
        exact hcon
      exact absub (this.trans hrunpre)
    · push_neg at hlen
      obtain ⟨t, ht⟩ := hcon
      have hRlen : (c :: itemsRun items).length ≤ ts.length := le_of_lt hlen
      have hdropped : ts.drop (c :: itemsRun items).length ++ t = ts ++ z := by
        have := congrArg (List.drop (c :: itemsRun items).length) ht
        rwa [List.drop_append_of_le_length hRlen, List.drop_left] at this
      have hBpre : (ts.drop (c :: itemsRun items).length).isPrefixOf ts = true := by
        rw [List.isPrefixOf_iff_prefix, List.prefix_iff_eq_take]
        have hBlen : (ts.drop (c :: itemsRun items).length).length ≤ ts.length := by
          rw [List.length_drop]; omega
        have := congrArg (List.take (ts.drop (c :: itemsRun items).length).length) hdropped
        rwa [List.take_left, List.take_append_of_le_length hBlen] at this
      have h0 : 0 < (c :: itemsRun items).length := by simp
      have := hnb (c :: itemsRun items).length h0 hlen
      rw [hBpre] at this
      exact Bool.true_eq_false ▸ this

theorem tokenizeAux_items (m : List Char → Option Nat)
    (hm : ∀ s n, m s = some n → 0 < n) (ts te : List Char)
    (hnb : ∀ k, 0 < k → k < ts.length → (ts.drop k).isPrefixOf ts = false) :
    ∀ f s ms, s.length < f → hasSub ts s = false →
      ∃ items,
        tokenizeAux m ts te f s ms =
          (flattenItems ts te ms.length items, ms ++ itemsContents items) ∧
        itemsOrig items = s ∧ GoodItems ts te ms.length items := by
  intro f
  induction f with
  | zero => intro s ms h; omega
  | succ f ih =>
    intro s ms hlen hno
    cases s with
    | nil =>
      refine ⟨[], ?_, rfl, trivial⟩
      rw [tokenizeAux, flattenItems, itemsContents, List.append_nil]
    | cons c rest =>
      rw [tokenizeAux]
      cases hmatch : m (c :: rest) with
      | none =>
        obtain ⟨items, hrun, horig, hgood⟩ :=
          ih rest ms (by simpa using Nat.lt_of_succ_lt_succ hlen) (hasSub_tail hno)
        refine ⟨.chr c :: items, ?_, ?_, ?_⟩
        · rw [flattenItems, itemsContents, hrun]
        · rw [itemsOrig, horig]
        · rw [GoodItems]
          refine ⟨?_, hgood⟩
          apply ts_not_prefix_of_chr ts te hnb
          rw [horig]
          exact hno
      | some n =>
        cases n with
        | zero => exact absurd (hm _ 0 hmatch) (by omega)
        | succ n =>
          have hdlen : ((c :: rest).drop (n + 1)).length < f := by
            rw [List.length_drop, List.length_cons]
            rw [List.length_cons] at hlen
            omega
          obtain ⟨items, hrun, horig, hgood⟩ :=
            ih ((c :: rest).drop (n + 1)) (ms ++ [(c :: rest).take (n + 1)]) hdlen
              (hasSub_drop hno (n + 1))
          have hmslen : (ms ++ [(c :: rest).take (n + 1)]).length = ms.length + 1 := by simp
          refine ⟨.tok ((c :: rest).take (n + 1)) :: items, ?_, ?_, ?_⟩
          · rw [flattenItems, itemsContents]
            simp only [hrun, hmslen]
            simp [List.append_assoc]
          · rw [itemsOrig, horig, List.take_append_drop]
          · rw [GoodItems]
            rwa [hmslen] at hgood

theorem detokTokAt_render (ts te : List Char)
    (hte : ∃ d te2, te = d :: te2 ∧ d.isDigit = false) (i : Nat) (rest : List Char) :
    detokTokAt ts te ((ts ++ natDigits (i + 1) ++ te) ++ rest) =
      some (i + 1, ts.length + (natDigits (i + 1)).length + te.length) := by
  obtain ⟨hall, hne, hval⟩ := natDigits_spec (i + 1)
  obtain ⟨d, te2, hteq, hd⟩ := hte
  have hpre : ts.isPrefixOf ((ts ++ natDigits (i + 1) ++ te) ++ rest) = true := by
    rw [List.isPrefixOf_iff_prefix]
    simp only [List.append_assoc]
    exact List.prefix_append _ _
  have hdrop : ((ts ++ natDigits (i + 1) ++ te) ++ rest).drop ts.length =
      natDigits (i + 1) ++ (te ++ rest) := by
    simp only [List.append_assoc]
    rw [List.drop_left]
  have htake : (natDigits (i + 1) ++ (te ++ rest)).takeWhile Char.isDigit =
      natDigits (i + 1) := by
    rw [takeWhile_append_of_all _ hall, hteq]
    simp [List.takeWhile_cons, hd]
  have hdrop2 : (natDigits (i + 1) ++ (te ++ rest)).drop (natDigits (i + 1)).length =
      te ++ rest := List.drop_left _ _
  have hte2 : te.isPrefixOf (te ++ rest) = true := by
    rw [List.isPrefixOf_iff_prefix]
    exact List.prefix_append _ _
  rw [detokTokAt, if_pos hpre, hdrop]
  simp only [htake, hdrop2]
  rw [if_neg hne, if_pos hte2, hval]

theorem detokenizeAux_items (ts te : List Char) (hts : ts ≠ [])
    (hte : ∃ d te2, te = d :: te2 ∧ d.isDigit = false) (ms : List (List Char)) :
    ∀ items f base pre post, pre.length = base →
      ms = pre ++ itemsContents items ++ post →
      (flattenItems ts te base items).length < f →
      GoodItems ts te base items →
      detokenizeAux ts te ms f (flattenItems ts te base items) = itemsOrig items := by
  intro items
  induction items with
  | nil =>
    intro f base pre post _ _ hf _
    rw [flattenItems] at hf ⊢
    rw [itemsOrig]
    cases f with
    | zero => omega
    | succ f => rfl
  | cons it r ih =>
    intro f base pre post hbase hms hf hgood
    cases it with
    | chr c =>
      rw [flattenItems] at hf ⊢
      rw [GoodItems] at hgood
      cases f with
      | zero => omega
      | succ f =>
        rw [detokenizeAux.eq_3]
        have hnone : detokTokAt ts te (c :: flattenItems ts te base r) = none := by
          rw [detokTokAt, if_neg]
          rw [hgood.1]
          exact Bool.false_ne_true
        rw [hnone, itemsOrig]
        refine congrArg (c :: ·) ?_
        apply ih f base pre post hbase ?_ ?_ hgood.2
        · rw [hms, itemsContents]
        · rw [List.length_cons] at hf
          omega
    | tok cs =>
      rw [flattenItems] at hf ⊢
      rw [GoodItems] at hgood
      cases f with
      | zero =>
        exfalso
        rw [List.length_append] at hf
        omega
      | succ f =>
        obtain ⟨c0, s0, hshape⟩ : ∃ c0 s0,
            (ts ++ natDigits (base + 1) ++ te) ++ flattenItems ts te (base + 1) r =
              c0 :: s0 := by
          cases ts with
          | nil => exact absurd rfl hts
          | cons a as =>
            exact ⟨a, as ++ natDigits (base + 1) ++ te ++ flattenItems (a :: as) te (base + 1) r,
              by simp [List.append_assoc]⟩
        rw [hshape, detokenizeAux.eq_3, ← hshape]
        have htok := detokTokAt_render ts te hte base (flattenItems ts te (base + 1) r)
        rw [htok]
        have hsucc : base + 1 - 1 = base := by omega
        have hgetD : ms.getD base "undefined".data = cs := by
          rw [hms, itemsContents]
          have : pre ++ (cs :: itemsContents r) ++ post =
              pre ++ (cs :: (itemsContents r ++ post)) := by
            simp [List.append_assoc]
          rw [this, List.getD_eq_getElem?_getD, ← hbase]
          rw [List.getElem?_append_right (le_refl pre.length)]
          simp
        have hdrop : (((ts ++ natDigits (base + 1) ++ te)) ++
            flattenItems ts te (base + 1) r).drop
              (ts.length + (natDigits (base + 1)).length + te.length) =
            flattenItems ts te (base + 1) r := by
          have : (ts ++ natDigits (base + 1) ++ te).length =
              ts.length + (natDigits (base + 1)).length + te.length := by
            simp [List.length_append]
            omega
          rw [← this, List.drop_left]
        simp only [hsucc, hgetD]
        rw [hdrop, itemsOrig]
        refine congrArg (cs ++ ·) ?_
        apply ih f (base + 1) (pre ++ [cs]) post (by simp [hbase]) ?_ ?_ hgood
        · rw [hms, itemsContents]
          simp
        · rw [List.length_append] at hf
          have h1 : 0 < ts.length := List.length_pos.mpr hts
          have h2 : (ts ++ natDigits (base + 1) ++ te).length =
              ts.length + (natDigits (base + 1)).length + te.length := by
            simp [List.length_append]
            omega
          omega

/-- C2 amended: for each protective tokenizer instance and every matcher whose
matches are nonempty (true of the three regexes), the round trip
`detokenize (tokenize s) = s` holds for every input `s` that contains no
occurrence of the instance's token-start marker. -/
theorem tokenizer_roundtrip (tk : List Char × List Char) (hinst : tk ∈ protTokens)
    (m : List Char → Option Nat) (hm : ∀ s n, m s = some n → 0 < n)
    (s : List Char) (hno : hasSub tk.1 s = false) :
    tokenizerDetok tk.1 tk.2 (tokenizerRun m tk.1 tk.2 s).2
      (tokenizerRun m tk.1 tk.2 s).1 = s := by
  have hts : tk.1 ≠ [] := by
    fin_cases hinst <;> decide
  have hnbB : noBorderB tk.1 = true := by
    fin_cases hinst <;> decide
  have hte : ∃ d te2, tk.2 = d :: te2 ∧ d.isDigit = false := by
    fin_cases hinst <;> exact ⟨_, _, rfl, by decide⟩
  have hnb := noBorderB_spec hnbB
  obtain ⟨items, hrun, horig, hgood⟩ :=
    tokenizeAux_items m hm tk.1 tk.2 hnb (s.length + 1) s [] (by omega) hno
  rw [tokenizerRun, hrun]
  rw [tokenizerDetok]
  have := detokenizeAux_items tk.1 tk.2 hts hte ([] ++ itemsContents items) items
    ((flattenItems tk.1 tk.2 0 items).length + 1) 0 [] [] rfl (by simp) (by omega)
    (by simpa using hgood)
  simp only [List.length_nil] at this ⊢
  rw [this, horig]

/-- Witness for the amended C2 theorem: the comment tokenizer instance with its
faithful comment matcher round-trips a marker-free stylesheet fragment. -/
theorem tokenizer_roundtrip_witness :
    (("`COMMENT".data, "`".data) ∈ protTokens) ∧
    (∀ s n, commentMatchAt s = some n → 0 < n) ∧
    hasSub "`COMMENT".data "a /* b */ c /*d*/".data = false ∧
    tokenizerDetok "`COMMENT".data "`".data
        (tokenizerRun commentMatchAt "`COMMENT".data "`".data "a /* b */ c /*d*/".data).2
        (tokenizerRun commentMatchAt "`COMMENT".data "`".data "a /* b */ c /*d*/".data).1 =
      "a /* b */ c /*d*/".data := by
  have hpos : ∀ s n, commentMatchAt s = some n → 0 < n := by
    intro s n h
    rw [commentMatchAt.eq_def] at h
    split at h
    · obtain ⟨i, -, hn⟩ := Option.map_eq_some'.mp h
      omega
    · exact absurd h (by simp)
  exact ⟨by decide, hpos, by decide,
    tokenizer_roundtrip ("`COMMENT".data, "`".data) (by decide) commentMatchAt hpos
      "a /* b */ c /*d*/".data (by decide)⟩

/-- Character-class atoms of the regex dialect used by the source patterns. -/
inductive ClsItem where
  | ch (c : Char)
  | range (lo hi : Char)
  | sp

/-- Abstract syntax of the ECMAScript regex subset the source patterns use.
Capturing groups are unnumbered in the syntax and numbered by traversal order
(exactly the `(`-order of the pattern text).  All patterns carry the `i` flag,
so literal and class matching is case-insensitive throughout. -/
inductive RE where
  | eps
  | ch (c : Char)
  | str (s : List Char)
  | cls (neg : Bool) (items : List ClsItem)
  | cat (a b : RE)
  | alt (a b : RE)
  | grp (a : RE)
  | rep (lo : Nat) (hi : Option Nat) (greedy : Bool) (a : RE)
  | look (neg : Bool) (a : RE)
  | bol

/-- Sequencing of a pattern list. -/
def RE.seq (rs : List RE) : RE := rs.foldr RE.cat RE.eps

/-- Ordered alternation of a pattern list. -/
def RE.first : List RE → RE
  | [] => RE.eps
  | [r] => r
  | r :: rest => RE.alt r (RE.first rest)

/-- Literal string pattern. -/
def RE.lit (s : String) : RE := RE.str s.data

/-- `e?` (greedy). -/
def RE.opt (r : RE) : RE := RE.rep 0 (some 1) true r

/-- `e*` (greedy). -/
def RE.star (r : RE) : RE := RE.rep 0 none true r

/-- `e+` (greedy). -/
def RE.plus (r : RE) : RE := RE.rep 1 none true r

/-- `e*?` (lazy). -/
def RE.lazyStar (r : RE) : RE := RE.rep 0 none false r

/-- Number of capturing groups, in traversal order. -/
def countGroups : RE → Nat
  | .cat a b => countGroups a + countGroups b
  | .alt a b => countGroups a + countGroups b
  | .grp a => 1 + countGroups a
  | .rep _ _ _ a => countGroups a
  | .look _ a => countGroups a
  | _ => 0

/-- JS whitespace matched by `\s` (the ASCII part; inputs are ASCII CSS). -/
def isReWs (c : Char) : Bool :=
  c = ' ' || c = '\t' || c = '\n' || c = '\r' || c = '\x0c' || c = '\x0b'

/-- ASCII lowercasing for the `i` flag. -/
def lowerCh (c : Char) : Char :=
  if 'A' ≤ c && c ≤ 'Z' then Char.ofNat (c.toNat + 32) else c

/-- ASCII uppercasing for the `i` flag. -/
def upperCh (c : Char) : Char :=
  if 'a' ≤ c && c ≤ 'z' then Char.ofNat (c.toNat - 32) else c

/-- Case-insensitive character equality. -/
def ciEq (a b : Char) : Bool := lowerCh a = lowerCh b

/-- Case-insensitive class-atom match. -/
def clsItemMatch (c : Char) (it : ClsItem) : Bool :=
  match it with
  | .ch d => ciEq c d
  | .range lo hi =>
    (lo ≤ c && c ≤ hi) || (lo ≤ lowerCh c && lowerCh c ≤ hi) ||
      (lo ≤ upperCh c && upperCh c ≤ hi)
  | .sp => isReWs c

/-- Case-insensitive class match. -/
def clsMatch (neg : Bool) (items : List ClsItem) (c : Char) : Bool :=
  if neg then !(items.any (clsItemMatch c)) else items.any (clsItemMatch c)

/-- Capture state: group number to captured text. -/
def Caps := Nat → Option (List Char)

/-- Empty capture state. -/
def capsEmpty : Caps := fun _ => none

/-- Record a capture. -/
def capsSet (cp : Caps) (g : Nat) (v : List Char) : Caps :=
  fun n => if n = g then some v else cp n

/-- Backtracking matcher in continuation-passing style with explicit fuel
(structural, so concrete runs reduce in the kernel).  `gb` is the number of the
next capturing group; `pos` is the absolute position in `full`. -/
def reMat : Nat → RE → Nat → List Char → Nat → Caps →
    (Nat → Caps → Option (Nat × Caps)) → Option (Nat × Caps)
  | 0, _, _, _, _, _, _ => none
  | f + 1, re, gb, full, pos, caps, k =>
    match re with
    | .eps => k pos caps
    | .bol => if pos = 0 then k pos caps else none
    | .ch c =>
      match full[pos]? with
      | some c2 => if ciEq c c2 then k (pos + 1) caps else none
      | none => none
    | .str l =>
      let rec go : List Char → Nat → Option (Nat × Caps)
        | [], p => k p caps
        | c :: rest, p =>
          match full[p]? with
          | some c2 => if ciEq c c2 then go rest (p + 1) else none
          | none => none
      go l pos
    | .cls neg items =>
      match full[pos]? with
      | some c2 => if clsMatch neg items c2 then k (pos + 1) caps else none
      | none => none
    | .cat a b =>
      reMat f a gb full pos caps fun p cp =>
        reMat f b (gb + countGroups a) full p cp k
    | .alt a b =>
      (reMat f a gb full pos caps k) <|>
        (reMat f b (gb + countGroups a) full pos caps k)
    | .grp a =>
      reMat f a (gb + 1) full pos caps fun p cp =>
        k p (capsSet cp gb ((full.drop pos).take (p - pos)))
    | .look neg a =>
      match reMat f a gb full pos caps (fun p cp => some (p, cp)) with
      | some (_, cp) => if neg then none else k pos cp
      | none => if neg then k pos caps else none
    | .rep lo hi greedy a =>
      match lo with
      | m + 1 =>
        reMat f a gb full pos caps fun p cp =>
          reMat f (.rep m (hi.map (· - 1)) greedy a) gb full p cp k
      | 0 =>
        match hi with
        | some 0 => k pos caps
        | _ =>
          if greedy then
            (reMat f a gb full pos caps fun p cp =>
              if p = pos then none
              else reMat f (.rep 0 (hi.map (· - 1)) greedy a) gb full p cp k) <|>
              k pos caps
          else
            (k pos caps) <|>
              (reMat f a gb full pos caps fun p cp =>
                if p = pos then none
                else reMat f (.rep 0 (hi.map (· - 1)) greedy a) gb full p cp k)

/-- Attempt a match of `re` at absolute position `pos` of `full`; returns the
end position and the captures. -/
def reMatchAt (re : RE) (full : List Char) (pos : Nat) (fuel : Nat) :
    Option (Nat × Caps) :=
  reMat fuel re 1 full pos capsEmpty (fun p cp => some (p, cp))

/-- Fuel used for one match attempt: generous bound on backtracking steps for
the inputs evaluated here. -/
def matFuel (full : List Char) : Nat := 2000 + 200 * full.length

/-- At-position matcher interface for the protective tokenizers (their patterns
contain no `^`, so matching the suffix is the same as matching at the position). -/
def reMatcher (re : RE) (s : List Char) : Option Nat :=
  (reMatchAt re s 0 (matFuel s)).map (fun r => r.1)

/-- A match found while scanning: the matched text and its captures. -/
structure MatchData where
  text : List Char
  caps : Nat → Option (List Char)

/-- Prepend gap text to a scan result: onto the first segment's gap, or onto
the trailing gap when there are no segments. -/
def consGap (g : List Char) :
    List (List Char × MatchData) × List Char → List (List Char × MatchData) × List Char
  | ((pre, m) :: rest, tail) => ((g ++ pre, m) :: rest, tail)
  | ([], tail) => ([], g ++ tail)

/-- Global scan of `full` from position `i`: the list of (gap text, match)
segments and the trailing gap, with JS `replace` semantics (leftmost matches,
continue after each match, advance one character past an empty match).  Match
ends are clamped to the input length so that the scan reconstructs the input. -/
def scanSegsAux (re : RE) (full : List Char) (mf : Nat) :
    Nat → Nat → List (List Char × MatchData) × List Char
  | 0, i => ([], full.drop i)
  | f + 1, i =>
    match reMatchAt re full i mf with
    | none =>
      if i < full.length then
        consGap ((full.drop i).take 1) (scanSegsAux re full mf f (i + 1))
      else ([], full.drop i)
    | some (e, cp) =>
      if i < min e full.length then
        let r := scanSegsAux re full mf f (min e full.length)
        (([], ⟨(full.drop i).take (min e full.length - i), cp⟩) :: r.1, r.2)
      else if i < full.length then
        let r := consGap ((full.drop i).take 1) (scanSegsAux re full mf f (i + 1))
        (([], ⟨[], cp⟩) :: r.1, r.2)
      else ([([], ⟨[], cp⟩)], [])

/-- Scan a whole string for the matches of `re`. -/
def scanSegs (re : RE) (full : List Char) : List (List Char × MatchData) × List Char :=
  scanSegsAux re full (matFuel full) (full.length + 1) 0

/-- JS `str.replace(regex, fn)` with a global regex and a replacement callback. -/
def jsReplaceRe (re : RE) (cb : MatchData → List Char) (full : List Char) : List Char :=
  let r := scanSegs re full
  ((r.1.map fun pm => pm.1 ++ cb pm.2).flatten) ++ r.2

/-- JS `str.replace(regex, template)` with a `$n` substitution template. -/
def substTemplate (m : MatchData) : List Char → List Char
  | [] => []
  | '$' :: c :: rest =>
    if c.isDigit then (m.caps (c.toNat - 48)).getD [] ++ substTemplate m rest
    else '$' :: c :: substTemplate m rest
  | c :: rest => c :: substTemplate m rest

/-- JS `str.replace(regex, templateString)`. -/
def jsReplaceTpl (re : RE) (tpl : List Char) (full : List Char) : List Char :=
  jsReplaceRe re (fun m => substTemplate m tpl) full

/-- JS `str.split(regex)` where the regex has one capturing group: the captured
separators are spliced between the pieces (used to split transform-function
arguments on `'(' + comma + ')'`). -/
def jsSplitCap1 (re : RE) (full : List Char) : List (List Char) :=
  let r := scanSegs re full
  (r.1.map fun pm => [pm.1, (pm.2.caps 1).getD []]).flatten ++ [r.2]

/-- Reassembled text of a scan result, replacing every match by itself. -/
def reconSegs (r : List (List Char × MatchData) × List Char) : List Char :=
  (r.1.map fun pm => pm.1 ++ pm.2.text).flatten ++ r.2

theorem reconSegs_consGap (g : List Char) (r : List (List Char × MatchData) × List Char) :
    reconSegs (consGap g r) = g ++ reconSegs r := by
  obtain ⟨segs, tail⟩ := r
  cases segs with
  | nil => simp [consGap, reconSegs]
  | cons pm rest =>
    obtain ⟨pre, m⟩ := pm
    simp [consGap, reconSegs, List.append_assoc]

theorem dropstep (full : List Char) (i : Nat) :
    (full.drop i).take 1 ++ full.drop (i + 1) = full.drop i := by
  have h1 : full.drop (i + 1) = (full.drop i).drop 1 := by
    rw [List.drop_drop]
  rw [h1, List.take_append_drop]

theorem scanSegsAux_recon (re : RE) (full : List Char) (mf : Nat) :
    ∀ f i, reconSegs (scanSegsAux re full mf f i) = full.drop i := by
  intro f
  induction f with
  | zero => intro i; rw [scanSegsAux]; simp [reconSegs]
  | succ f ih =>
    intro i
    rw [scanSegsAux]
    split
    · split
      · rw [reconSegs_consGap, ih, dropstep]
      · simp [reconSegs]
    · rename_i e cp heq
      split
      · rename_i hlt
        dsimp only [reconSegs, List.map_cons, List.flatten_cons]
        have hrec := ih (min e full.length)
        rw [reconSegs] at hrec
        simp only [List.nil_append, List.append_assoc]
        rw [hrec]
        have h2 : full.drop (min e full.length) =
            (full.drop i).drop (min e full.length - i) := by
          rw [List.drop_drop]
          congr 1
          omega
        rw [h2, List.take_append_drop]
      · split
        · dsimp only [reconSegs, List.map_cons, List.flatten_cons]
          simp only [List.nil_append, List.append_nil]
          have : reconSegs (consGap ((full.drop i).take 1)
              (scanSegsAux re full mf f (i + 1))) = full.drop i := by
            rw [reconSegs_consGap, ih, dropstep]
          rw [reconSegs] at this
          simpa using this
        · rename_i hge hlen
          dsimp only [reconSegs, List.map_cons, List.map_nil, List.flatten_cons,
            List.flatten_nil]
          simp only [List.append_nil, List.nil_append]
          rw [List.drop_eq_nil_of_le (by omega)]

/-- If every match's callback result is the matched text itself, `replace` is
the identity. -/
theorem jsReplaceRe_id (re : RE) (cb : MatchData → List Char) (full : List Char)
    (h : ∀ pm ∈ (scanSegs re full).1, cb pm.2 = pm.2.text) :
    jsReplaceRe re cb full = full := by
  rw [jsReplaceRe]
  have hmap : ((scanSegs re full).1.map fun pm => pm.1 ++ cb pm.2) =
      ((scanSegs re full).1.map fun pm => pm.1 ++ pm.2.text) := by
    apply List.map_congr_left
    intro pm hpm
    rw [h pm hpm]
  have hrecon := scanSegsAux_recon re full (matFuel full) (full.length + 1) 0
  rw [scanSegs] at *
  rw [reconSegs] at hrecon
  simp only [List.drop_zero] at hrecon
  simpa [hmap] using hrecon

/-! Pattern fragments, translated one-for-one from the pattern variables of
src/cssjanus.js lines 111-166.  Group structure (placement of capturing
groups) mirrors the `(`-order of the source pattern strings. -/

/-- `[0-9]`. -/
def clsDigit : RE := .cls false [.range '0' '9']

/-- `\s`. -/
def wsChar : RE := .cls false [.sp]

/-- `[-+]`. -/
def signCls : RE := .cls false [.ch '-', .ch '+']

/-- The comment token occurrence pattern `` `COMMENT\d+` `` (`commentToken`). -/
def commentTokenRE : RE := .seq [.lit "`COMMENT", .plus clsDigit, .lit "`"]

/-- The calc token occurrence pattern `` `CALC\d+` `` (`calcToken`). -/
def calcTokenRE : RE := .seq [.lit "`CALC", .plus clsDigit, .lit "`"]

/-- `nonAsciiPattern` = `[^ -~]`. -/
def nonAsciiRE : RE := .cls true [.range ' ' '~']

/-- `unicodePattern` = `(?:(?:\\[0-9a-f]{1,6})(?:\r\n|\s)?)`. -/
def unicodeRE : RE :=
  .seq [.ch '\\', .rep 1 (some 6) true (.cls false [.range '0' '9', .range 'a' 'f']),
    .opt (.first [.lit "\r\n", wsChar])]

/-- `numPattern` = `(?:[0-9]*\.[0-9]+|[0-9]+)(?:[eE][-+]?[0-9+])?`. -/
def numRE : RE :=
  .cat (.first [.seq [.star clsDigit, .ch '.', .plus clsDigit], .plus clsDigit])
    (.opt (.seq [.ch 'e', .opt signCls, .cls false [.range '0' '9', .ch '+']]))

/-- `unitPattern` (the unit alternation with its `(?![a-z])` lookahead). -/
def unitRE : RE :=
  .cat (.first [.lit "em", .lit "ex", .lit "px", .lit "cm", .lit "mm", .lit "in",
    .lit "pt", .lit "pc", .lit "q", .lit "rem", .lit "ch", .lit "vh", .lit "vw",
    .lit "vmax", .lit "vmin", .lit "deg", .lit "rad", .lit "grad", .lit "ms",
    .lit "s", .lit "hz", .lit "khz", .lit "%"])
    (.look true (.cls false [.range 'a' 'z']))

/-- `_` = `(?:\s|commentToken)*`. -/
def wsStarRE : RE := .star (.alt wsChar commentTokenRE)

/-- `ws` = `(?:\s|commentToken)+`. -/
def wsPlusRE : RE := .plus (.alt wsChar commentTokenRE)

/-- `sws` = `(` ws `)`. -/
def swsRE : RE := .grp wsPlusRE

/-- `colon` = `_ : _`. -/
def colonRE : RE := .seq [wsStarRE, .ch ':', wsStarRE]

/-- `slash` = `_ / _`. -/
def slashRE : RE := .seq [wsStarRE, .ch '/', wsStarRE]

/-- `comma` = `_ , _`. -/
def commaRE : RE := .seq [wsStarRE, .ch ',', wsStarRE]

/-- `directionPattern` = `direction` colon. -/
def directionPatternRE : RE := .cat (.lit "direction") colonRE

/-- `urlSpecialCharsPattern` = `[!#$%&*-~]`. -/
def urlSpecialCharsRE : RE :=
  .cls false [.ch '!', .ch '#', .ch '$', .ch '%', .ch '&', .range '*' '~']

/-- `validAfterUriCharsPattern` = `['"]? _`. -/
def validAfterUriCharsRE : RE :=
  .cat (.opt (.cls false [.ch (Char.ofNat 39), .ch '"'])) wsStarRE

/-- `nonLetterPattern` = `(^|[^a-zA-Z])`. -/
def nonLetterRE : RE :=
  .grp (.first [.bol, .cls true [.range 'a' 'z', .range 'A' 'Z']])

/-- `noFlipPattern` = `\/\*\!?\s*@noflip\s*\*\/`. -/
def noFlipRE : RE :=
  .seq [.ch '/', .ch '*', .opt (.ch '!'), .star wsChar, .lit "@noflip",
    .star wsChar, .ch '*', .ch '/']

/-- `commentPattern` = `\/\*[^*]*\*+([^\/*][^*]*\*+)*\/`. -/
def commentRE : RE :=
  .seq [.ch '/', .ch '*', .star (.cls true [.ch '*']), .plus (.ch '*'),
    .star (.grp (.seq [.cls true [.ch '/', .ch '*'], .star (.cls true [.ch '*']),
      .plus (.ch '*')])),
    .ch '/']

/-- `escapePattern` = `(?:unicode|\\[^\r\n\f0-9a-f])`. -/
def escapeRE : RE :=
  .first [unicodeRE,
    .seq [.ch '\\', .cls true [.ch '\r', .ch '\n', .ch '\x0c', .range '0' '9',
      .range 'a' 'f']]]

/-- `nmstartPattern` = `(?:[_a-z]|nonAscii|escape)`. -/
def nmstartRE : RE :=
  .first [.cls false [.ch '_', .range 'a' 'z'], nonAsciiRE, escapeRE]

/-- `nmcharPattern` = `(?:[_a-z0-9-]|nonAscii|escape)`. -/
def nmcharRE : RE :=
  .first [.cls false [.ch '_', .range 'a' 'z', .range '0' '9', .ch '-'],
    nonAsciiRE, escapeRE]

/-- `identPattern` = `-?` nmstart nmchar`*`. -/
def identRE : RE := .seq [.opt (.ch '-'), nmstartRE, .star nmcharRE]

/-- `stringPattern`: double- or single-quoted CSS string. -/
def stringRE : RE :=
  .first [
    .seq [.ch '"',
      .star (.first [.cls true [.ch '\\', .ch '"', .ch '\n'], escapeRE,
        .seq [.ch '\\', .ch '\n']]),
      .ch '"'],
    .seq [.ch (Char.ofNat 39),
      .star (.first [.cls true [.ch '\\', .ch (Char.ofNat 39), .ch '\n'], escapeRE,
        .seq [.ch '\\', .ch '\n']]),
      .ch (Char.ofNat 39)]]

/-- `quantPattern` = `(?:[-+]?num(?:\s*unit|ident)?|-?calcToken)`. -/
def quantRE : RE :=
  .first [
    .seq [.opt signCls, numRE, .opt (.first [.cat (.star wsChar) unitRE, identRE])],
    .cat (.opt (.ch '-')) calcTokenRE]

/-- `posQuantPattern` = `(?:\+?num(?:\s*unit|ident)?|calcToken)`. -/
def posQuantRE : RE :=
  .first [
    .seq [.opt (.ch '+'), numRE, .opt (.first [.cat (.star wsChar) unitRE, identRE])],
    calcTokenRE]

/-- `signedQuantPattern` = `(` quant `|inherit|auto)`. -/
def signedQuantRE : RE := .grp (.first [quantRE, .lit "inherit", .lit "auto"])

/-- `signedLineWidthPattern`. -/
def signedLineWidthRE : RE :=
  .grp (.first [quantRE, .lit "inherit", .lit "auto", .lit "thin", .lit "medium",
    .lit "thick"])

/-- `fourNotationQuantPropsPattern`. -/
def fourNotationQuantPropsRE : RE :=
  .grp (.seq [.first [.lit "margin", .lit "padding", .lit "border-image-width",
    .lit "border-image-outset"], colonRE])

/-- `fourNotationLineWidthPropsPattern`. -/
def fourNotationLineWidthPropsRE : RE :=
  .grp (.cat (.lit "border-width") colonRE)

/-- `fourNotationColorPropsPattern`. -/
def fourNotationColorPropsRE : RE :=
  .grp (.seq [.first [.lit "border-color", .lit "border-style"], colonRE])

/-- `colorPattern`: function color, keyword, or hex color. -/
def colorRE : RE :=
  .first [
    .seq [.first [.seq [.lit "rgb", .opt (.ch 'a')], .seq [.lit "hsl", .opt (.ch 'a')]],
      .ch '(', .plus (.first [quantRE, commaRE, wsPlusRE]), .ch ')'],
    .cat nmstartRE (.star nmcharRE),
    .cat (.ch '#') (.plus nmcharRE)]

/-- `signedColorPattern` = `(` color `)`. -/
def signedColorRE : RE := .grp colorRE

/-- Body alternation of `urlCharsPattern`. -/
def urlCharsBodyRE : RE := .first [urlSpecialCharsRE, nonAsciiRE, escapeRE]

/-- `urlCharsPattern` = `(?:...)*`. -/
def urlCharsRE : RE := .star urlCharsBodyRE

/-- `urlPattern` = `url\( _ (?:string|urlChars) _ \)`. -/
def urlRE : RE :=
  .seq [.lit "url", .ch '(', wsStarRE, .first [stringRE, urlCharsRE], wsStarRE,
    .ch ')']

/-- `sidesPattern` = `top|right|bottom|left`. -/
def sidesWordsRE : RE :=
  .first [.lit "top", .lit "right", .lit "bottom", .lit "left"]

/-- `edgesPattern` = `(?:sides|center)`. -/
def edgesRE : RE := .first [sidesWordsRE, .lit "center"]

/-- `lookAheadNotLetterPattern` = `(?![a-zA-Z])`. -/
def lookAheadNotLetterRE : RE :=
  .look true (.cls false [.range 'a' 'z', .range 'A' 'Z'])

/-- `lookAheadNotOpenBracePattern`: not followed by selector-ish text and `{`. -/
def lookAheadNotOpenBraceRE : RE :=
  .look true (.cat
    (.lazyStar (.grp (.first [nmcharRE, .cat (.opt (.ch '\r')) (.ch '\n'), wsChar,
      .ch '#', .ch ':', .ch '.', .ch ',', .ch '+', .ch '>', .ch '~', .ch '(',
      .ch ')', .ch '[', .ch ']', .ch '*', .ch '=', .lit "~=", .lit "^=",
      .lit "$=", .ch '|', stringRE, commentTokenRE])))
    (.ch (Char.ofNat 123)))

/-- `lookAheadNotClosingParenPattern` = `(?!urlChars?validAfterUri\))`. -/
def lookAheadNotClosingParenRE : RE :=
  .look true (.seq [.rep 0 none false urlCharsBodyRE, validAfterUriCharsRE,
    .ch ')'])

/-- `lookAheadForClosingParenPattern` = `(?=urlChars?validAfterUri\))`. -/
def lookAheadForClosingParenRE : RE :=
  .look false (.seq [.rep 0 none false urlCharsBodyRE, validAfterUriCharsRE,
    .ch ')'])

/-- `suffixPattern` = `( _ (?:!important _ )?[;}])`. -/
def suffixRE : RE :=
  .grp (.seq [wsStarRE, .opt (.seq [.lit "!important", wsStarRE]),
    .cls false [.ch ';', .ch (Char.ofNat 125)]])

/-- `anglePattern` = `(?:([-+]?num)((?:deg|g?rad|turn)?))`. -/
def angleRE : RE :=
  .cat (.grp (.cat (.opt signCls) numRE))
    (.grp (.opt (.first [.lit "deg", .cat (.opt (.ch 'g')) (.lit "rad"),
      .lit "turn"])))

/-- `colorStopsPattern`: two or more color stops. -/
def colorStopsRE : RE :=
  .seq [colorRE, .opt (.cat wsPlusRE quantRE),
    .plus (.seq [commaRE, colorRE, .opt (.cat wsPlusRE quantRE)])]

/-! The regular expressions of src/cssjanus.js lines 167-259, built from the
fragments above with the same group placement as the source pattern strings. -/

/-- `commentRegExp`. -/
def commentRegExp : RE := commentRE

/-- `charsWithinSelectorPattern` = `(?:url|string|[^}])*?`. -/
def charsWithinSelectorRE : RE :=
  .lazyStar (.first [urlRE, stringRE, .cls true [.ch (Char.ofNat 125)]])

/-- `noFlipSingleRegExp`. -/
def noFlipSingleRegExp : RE :=
  .grp (.seq [noFlipRE, lookAheadNotOpenBraceRE,
    .plus (.grp (.first [urlRE, .cls true [.ch ';', .ch (Char.ofNat 125)]])),
    .opt (.ch ';')])

/-- `noFlipClassRegExp`. -/
def noFlipClassRegExp : RE :=
  .grp (.seq [noFlipRE, charsWithinSelectorRE, .ch (Char.ofNat 125)])

/-- `directionRegExp`. -/
def directionRegExp : RE :=
  .seq [.grp directionPatternRE, .grp (.first [.lit "ltr", .lit "rtl"]),
    lookAheadNotLetterRE]

/-- `sidesRegExp`. -/
def sidesRegExp : RE :=
  .seq [nonLetterRE,
    .opt (.grp (.alt
      (.seq [.first [.lit "float", .lit "clear",
        .cat (.lit "text-align") (.opt (.lit "-last"))], colonRE])
      (.grp (.first [
        .seq [.lit "vertical-align", colonRE, .opt (.lit "text-")],
        .seq [.lit "text-orientation", colonRE, .lit "sideways-"],
        .cat (.lit "caption-side") colonRE])))),
    .grp sidesWordsRE,
    lookAheadNotLetterRE, lookAheadNotClosingParenRE, lookAheadNotOpenBraceRE]

/-- `edgeInUrlRegExp`. -/
def edgeInUrlRegExp : RE :=
  .seq [nonLetterRE, .grp sidesWordsRE, lookAheadNotLetterRE,
    lookAheadForClosingParenRE]

/-- `dirInUrlRegExp`. -/
def dirInUrlRegExp : RE :=
  .seq [nonLetterRE,
    .grp (.first [.lit "ltr", .lit "rtl",
      .seq [.first [.lit "tb", .lit "bt", .lit "vertical"], .ch '-',
        .first [.lit "lr", .lit "rl", .lit "inline"]],
      .seq [.first [.lit "lr", .lit "rl", .lit "horizontal"], .ch '-',
        .first [.lit "tb", .lit "bt", .lit "inline"]]]),
    lookAheadNotLetterRE, lookAheadForClosingParenRE]

/-- `cursorRegExp`. -/
def cursorRegExp : RE :=
  .seq [.grp (.cat (.lit "cursor") colonRE),
    .alt
      (.seq [.opt (.grp (.cls false [.ch 'n', .ch 's'])),
        .opt (.grp (.cls false [.ch 'e', .ch 'w'])), .lit "-resize"])
      (.grp (.first [
        .cat (.first [.lit "row", .lit "col", .lit "ns", .lit "ew", .lit "nesw",
          .lit "nwse"]) (.lit "-resize"),
        .lit "text", .lit "vertical-text"]))]

/-- `fourNotationQuantRegExp`. -/
def fourNotationQuantRegExp : RE :=
  .seq [fourNotationQuantPropsRE, signedQuantRE, swsRE, signedQuantRE,
    .opt (.seq [swsRE, signedQuantRE, .opt (.cat swsRE signedQuantRE)]),
    suffixRE]

/-- `fourNotationLineWidthRegExp`. -/
def fourNotationLineWidthRegExp : RE :=
  .seq [fourNotationLineWidthPropsRE, signedLineWidthRE, swsRE, signedLineWidthRE,
    .opt (.seq [swsRE, signedLineWidthRE, .opt (.cat swsRE signedLineWidthRE)]),
    suffixRE]

/-- `fourNotationColorRegExp`. -/
def fourNotationColorRegExp : RE :=
  .seq [fourNotationColorPropsRE, signedColorRE, swsRE, signedColorRE,
    .opt (.seq [swsRE, signedColorRE, .opt (.cat swsRE signedColorRE)]),
    suffixRE]

/-- `bgRegExp`. -/
def bgRegExp : RE :=
  .seq [.grp (.cat (.lit "background") (.opt (.lit "-position"))),
    .grp colonRE,
    .grp (.plus (.first [urlRE,
      .cls true [.ch ';', .ch (Char.ofNat 123), .ch (Char.ofNat 125)]]))]

/-- `bgXYRegExp`. -/
def bgXYRegExp : RE :=
  .seq [.grp (.cat (.lit "background-position-") (.cls false [.ch 'x', .ch 'y'])),
    .opt (.seq [.grp colonRE,
      .grp (.plus (.cls true [.ch ';', .ch (Char.ofNat 123), .ch (Char.ofNat 125)])),
      suffixRE])]

/-- `positionValuesRegExp`. -/
def positionValuesRegExp : RE :=
  .seq [.grp (.first [.bol, wsChar, .ch ',']),
    .grp (.alt
      (.grp (.seq [edgesRE,
        .opt (.seq [wsPlusRE, quantRE, .look false (.cat wsPlusRE edgesRE)])]))
      quantRE),
    .opt (.cat swsRE
      (.grp (.alt (.grp (.cat edgesRE (.opt (.cat wsPlusRE quantRE)))) quantRE))),
    .opt (.seq [.grp slashRE, .grp posQuantRE, swsRE, .grp posQuantRE]),
    .look true (.cat (.star (.cls true [.ch '(', .ch ')'])) (.ch ')')),
    lookAheadNotClosingParenRE]

/-- `bgPositionSingleValueRegExp`. -/
def bgPositionSingleValueRegExp : RE :=
  .seq [.grp (.first [.bol, wsChar, .ch ',']),
    .grp (.seq [.opt signCls, numRE, .ch '%']),
    lookAheadNotClosingParenRE]

/-- `bgRepeatRegExp`. -/
def bgRepeatRegExp : RE :=
  .seq [.grp (.cat (.lit "background-repeat") colonRE),
    .grp (.plus (.cls false [.range 'A' 'z', .ch '-', .ch ',', .ch ' '])),
    suffixRE]

/-- `bgRepeatValueRegExp`. -/
def bgRepeatValueRegExp : RE :=
  .cat
    (.alt (.cat (.lit "repeat-") (.cls false [.ch 'x', .ch 'y']))
      (.seq [.grp (.first [.cat (.opt (.lit "no-")) (.lit "repeat"), .lit "space",
        .lit "round"]),
        swsRE,
        .grp (.first [.cat (.opt (.lit "no-")) (.lit "repeat"), .lit "space",
          .lit "round"])]))
    lookAheadNotClosingParenRE

/-- `bgSizeRegExp`. -/
def bgSizeRegExp : RE :=
  .seq [.grp (.cat (.lit "background-size") colonRE),
    .grp (.plus (.cls true [.ch ';', .ch (Char.ofNat 123), .ch (Char.ofNat 125)]))]

/-- `twoQuantsRegExp`. -/
def twoQuantsRegExp : RE :=
  .cat (.grp (.alt (.lit "auto") posQuantRE))
    (.opt (.cat swsRE (.grp (.alt (.lit "auto") posQuantRE))))

/-- `linearGradientRegExp`. -/
def linearGradientRegExp : RE :=
  .seq [.grp (.seq [.opt (.lit "repeating-"), .lit "linear-gradient", .ch '(',
    wsStarRE]),
    .opt (.cat angleRE (.grp commaRE)),
    .grp (.seq [colorStopsRE, wsStarRE, .ch ')'])]

/-- `radialGradientRegExp`. -/
def radialGradientRegExp : RE :=
  .seq [.grp (.seq [.opt (.lit "repeating-"), .lit "radial-gradient", .ch '(',
    wsStarRE]),
    .grp (.star (.seq [wsStarRE,
      .first [.seq [.first [.lit "closest", .lit "farthest"], .ch '-',
        .first [.lit "corner", .lit "side"]], .lit "circle", .lit "ellipse",
        posQuantRE],
      .look false (.alt wsChar (.ch ','))])),
    .opt (.grp (.seq [wsPlusRE, .lit "at",
      .rep 1 (some 4) true (.cat wsPlusRE (.first [edgesRE, quantRE]))])),
    .grp (.seq [commaRE, colorStopsRE, wsStarRE, .ch ')'])]

/-- `borderImageRegExp`. -/
def borderImageRegExp : RE :=
  .seq [.grp (.seq [.lit "border-image", .opt (.lit "-slice"), colonRE,
    .lazyStar (.cls true [.ch ';', .ch (Char.ofNat 125)])]),
    signedQuantRE,
    .opt (.seq [.grp (.cat wsPlusRE (.opt (.cat (.lit "fill") wsPlusRE))),
      signedQuantRE,
      .opt (.seq [.grp (.cat wsPlusRE (.opt (.cat (.lit "fill") wsPlusRE))),
        signedQuantRE,
        .opt (.cat (.grp (.cat wsPlusRE (.opt (.cat (.lit "fill") wsPlusRE))))
          signedQuantRE)])]),
    .opt (.seq [.grp (.cat (.opt (.cat wsPlusRE (.lit "fill"))) slashRE),
      .opt (.seq [signedQuantRE,
        .opt (.seq [swsRE, signedQuantRE,
          .opt (.seq [swsRE, signedQuantRE, .opt (.cat swsRE signedQuantRE)])])]),
      .opt (.seq [.grp slashRE,
        .opt (.seq [signedQuantRE,
          .opt (.seq [swsRE, signedQuantRE,
            .opt (.seq [swsRE, signedQuantRE,
              .opt (.cat swsRE signedQuantRE)])])])])]),
    lookAheadNotClosingParenRE]

/-- `borderImageRepeatRegExp`. -/
def borderImageRepeatRegExp : RE :=
  .seq [.grp (.seq [.lit "border-image", .opt (.lit "-repeat"), colonRE,
    .lazyStar (.cls true [.ch ';', .ch (Char.ofNat 125)])]),
    .grp (.first [.lit "stretch", .lit "repeat", .lit "round", .lit "space"]),
    swsRE,
    .grp (.first [.lit "stretch", .lit "repeat", .lit "round", .lit "space"]),
    lookAheadNotLetterRE, lookAheadNotClosingParenRE]

/-- `borderRadiusRegExp`. -/
def borderRadiusRegExp : RE :=
  .seq [.grp (.cat (.lit "border-radius") colonRE),
    signedQuantRE,
    .opt (.seq [swsRE, signedQuantRE, .opt (.cat swsRE signedQuantRE),
      .opt (.cat swsRE signedQuantRE)]),
    .opt (.seq [.grp slashRE, signedQuantRE, .opt (.cat swsRE signedQuantRE),
      .opt (.cat swsRE signedQuantRE), .opt (.cat swsRE signedQuantRE)]),
    suffixRE]

/-- `borderRadiusSingleCornerRegExp`. -/
def borderRadiusSingleCornerRegExp : RE :=
  .seq [.lit "border-", .grp (.alt (.lit "left") (.lit "right")), .ch '-',
    .grp (.alt (.lit "top") (.lit "bottom")), .lit "-radius",
    .opt (.seq [.grp colonRE, .grp posQuantRE, swsRE, .grp posQuantRE]),
    lookAheadNotOpenBraceRE, lookAheadNotClosingParenRE]

/-- `shadowRegExp`. -/
def shadowRegExp : RE :=
  .cat
    (.grp (.alt
      (.seq [.first [.lit "box", .lit "text"], .lit "-shadow", colonRE])
      (.seq [.lit "drop-shadow", .ch '(', wsStarRE])))
    (.grp (.cat (.first [.lit "inset", quantRE, colorRE])
      (.star (.cat (.alt wsPlusRE commaRE)
        (.first [.lit "inset", quantRE, colorRE])))))

/-- `shadowValueRegExp`. -/
def shadowValueRegExp : RE :=
  .seq [.opt (.grp (.seq [colorRE, wsPlusRE, .opt (.cat (.lit "inset") wsPlusRE)])),
    signedQuantRE, swsRE, signedQuantRE,
    .grp (.star (.cls true [.ch ',', .ch ';', .ch (Char.ofNat 125)]))]

/-- `transformRegExp`. -/
def transformRegExp : RE :=
  .seq [.grp (.cat (.lit "transform") colonRE),
    .grp (.plus (.cls true [.ch ';', .ch (Char.ofNat 123), .ch (Char.ofNat 125)])),
    suffixRE]

/-- `transformFunctionRegExp`. -/
def transformFunctionRegExp : RE :=
  .seq [.grp (.cat (.first [.lit "rotate", .lit "translate", .lit "skew",
    .lit "scale", .lit "matrix"])
    (.opt (.first [.ch 'x', .ch 'y', .ch 'z', .lit "3d"]))),
    .grp (.cat (.ch '(') wsStarRE),
    .grp (.lazyStar (.cls true [.ch ')'])),
    .grp (.cat wsStarRE (.ch ')'))]

/-- `transformOriginRegExp`. -/
def transformOriginRegExp : RE :=
  .seq [.grp (.cat (.lit "transform-origin") colonRE),
    .look false (.grp (.opt (.alt
      (.seq [.first [.lit "top", .lit "bottom"], wsPlusRE, quantRE])
      (.seq [quantRE, wsPlusRE, .first [.lit "left", .lit "right"]])))),
    .look false (.grp (.opt (.alt
      (.seq [.first [.lit "left", .lit "right"], wsPlusRE, quantRE])
      (.seq [quantRE, wsPlusRE, .first [.lit "top", .lit "bottom"]])))),
    .grp (.alt
      (.cat edgesRE (.look false (.cat wsPlusRE (.first [edgesRE, quantRE]))))
      quantRE),
    .opt (.cat swsRE (.grp (.first [edgesRE, quantRE])))]

/-- `perspectiveOriginRegExp`. -/
def perspectiveOriginRegExp : RE :=
  .seq [.grp (.cat (.lit "perspective-origin") colonRE),
    .grp (.plus (.cls true [.ch ';', .ch (Char.ofNat 123), .ch (Char.ofNat 125)]))]

/-- `sizeRegExp`. -/
def sizeRegExp : RE :=
  .seq [.grp (.first [.lit "max-", .lit "min-", .cls true [.ch '-', .range 'a' 'z']]),
    .grp (.alt (.lit "height") (.lit "width")),
    lookAheadNotLetterRE, lookAheadNotClosingParenRE, lookAheadNotOpenBraceRE]

/-- `writingModeRegExp`. -/
def writingModeRegExp : RE :=
  .seq [.grp (.cat (.lit "writing-mode") colonRE),
    .grp (.first [.lit "tb", .lit "bt", .lit "rl", .lit "lr", .lit "horizontal",
      .lit "vertical"]),
    .ch '-',
    .grp (.first [.lit "tb", .lit "bt", .lit "rl", .lit "lr"])]

/-- `resizeRegExp`. -/
def resizeRegExp : RE :=
  .seq [.grp (.cat (.lit "resize") colonRE),
    .grp (.alt (.lit "horizontal") (.lit "vertical"))]

/-- `xyPropRegExp`. -/
def xyPropRegExp : RE :=
  .seq [.grp (.first [.lit "overflow", .lit "scroll-snap-points",
    .lit "scroll-snap-type", .lit "overscroll-behavior", .lit "pan"]),
    .ch '-', .grp (.cls false [.ch 'x', .ch 'y']),
    lookAheadNotClosingParenRE, lookAheadNotOpenBraceRE]

/-- `mediaQueryRegExp`. -/
def mediaQueryRegExp : RE :=
  .seq [.grp (.cat (.lit "@media") wsPlusRE),
    .grp (.plus (.cls true [.ch (Char.ofNat 123), .ch (Char.ofNat 125)])),
    .grp (.ch (Char.ofNat 123))]

/-- `mediaOrientationRegExp`. -/
def mediaOrientationRegExp : RE :=
  .seq [.grp (.cat (.lit "orientation") colonRE),
    .grp (.alt (.lit "landscape") (.lit "portrait"))]

/-- `mediaFeatureRegExp`. -/
def mediaFeatureRegExp : RE :=
  .seq [.grp (.first [.lit "width", .lit "height", .lit "aspect-ratio"]),
    .grp colonRE,
    .opt (.cat (.grp posQuantRE)
      (.opt (.cat (.grp slashRE) (.grp posQuantRE))))]

/-- The separator regex `new RegExp( '(' + comma + ')', 'g' )` used to split
transform-function arguments. -/
def commaSplitRegExp : RE := .grp commaRE

/-! The text-swap table and the replacement callbacks of `transform`
(src/cssjanus.js lines 338-408 and 479-1008). -/

/-- ASCII `toLowerCase`. -/
def lowerStr (s : List Char) : List Char := s.map lowerCh

/-- A JS object with string keys (the `textChanges` table). -/
def TextMap := List Char → Option (List Char)

/-- Assignment `obj[k] = v`; an `undefined` key stringifies to `"undefined"`. -/
def tmSet (tm : TextMap) (k : Option (List Char)) (v : List Char) : TextMap :=
  let key := k.getD "undefined".data
  fun x => if x = key then some v else tm x

/-- `sides` array (line 102). -/
def sidesArr : List (List Char) := ["top".data, "right".data, "bottom".data, "left".data]

/-- `cursors` array (line 103). -/
def cursorsArr : List (List Char) := ["n".data, "e".data, "s".data, "w".data]

/-- `wmDirs` array (line 104). -/
def wmDirsArr : List (List Char) := ["tb".data, "rl".data, "bt".data, "lr".data]

/-- JS `arr[i]` with a possibly-`undefined` numeric index. -/
def jsArrIdx (a : List (List Char)) (i : Option Nat) : Option (List Char) :=
  match i with
  | some n => a.get? n
  | none => none

/-- The `rotateMap` pairs (lines 493-512), in insertion order. -/
def rotatePairs : List (List Char × List Char) :=
  [("height".data, "width".data),
    ("background-position-x".data, "background-position-y".data),
    ("horizontal".data, "vertical".data),
    ("text".data, "vertical-text".data),
    ("ns-resize".data, "ew-resize".data),
    ("row-resize".data, "col-resize".data),
    ("portrait".data, "landscape".data),
    ("x".data, "y".data),
    ("scalex".data, "scaley".data),
    ("skewx".data, "skewy".data),
    ("rotatex".data, "rotatey".data),
    ("translatex".data, "translatey".data)]

/-- Build the `textChanges` table (lines 479-528). -/
def buildTextMap (d : Descriptor) : TextMap :=
  let base : TextMap := fun _ => none
  let tm := (List.range 4).foldl
    (fun tm i =>
      let tm := tmSet tm (jsArrIdx sidesArr (d.sideMap i)) ((sidesArr.get? i).getD [])
      let tm := tmSet tm (jsArrIdx cursorsArr (d.sideMap i)) ((cursorsArr.get? i).getD [])
      tmSet tm (jsArrIdx wmDirsArr (d.sideMap i)) ((wmDirsArr.get? i).getD []))
    base
  let tm := if d.quarterTurned then
      rotatePairs.foldl (fun tm kv => tmSet (tmSet tm (some kv.1) kv.2) (some kv.2) kv.1) tm
    else tm
  let tm := if d.dirFlipped then
      tmSet (tmSet tm (some "ltr".data) "rtl".data) (some "rtl".data) "ltr".data
    else tm
  if d.cornersFlipped then
    tmSet (tmSet tm (some "nesw-resize".data) "nwse-resize".data)
      (some "nwse-resize".data) "nesw-resize".data
  else tm

/-- The returned `swapText` closure (lines 536-540): look up the lowercased
text, falling back to the text itself and then to the empty string. -/
def swapTextF (tm : TextMap) (t : Option (List Char)) : List Char :=
  match t with
  | none => (tm "undefined".data).getD []
  | some [] => (tm []).getD []
  | some s => (tm (lowerStr s)).getD s

/-- Model of `backgroundTwoPointSwap` (lines 349-352). -/
def backgroundTwoPointSwapCb (m : MatchData) : List Char :=
  let y := m.caps 3
  if jsTruthy y then (y.getD []) ++ ((m.caps 2).getD []) ++ ((m.caps 1).getD [])
  else if lowerStr m.text = "repeat-x".data then "repeat-y".data
  else "repeat-x".data

/-- Model of `flipXYPositions` (lines 361-372); a `dir` outside 0-3 falls off
the switch and yields `undefined`, stringified on concatenation. -/
def flipXYPositions (dir : Option Nat) (X Y : List Char) : List Char :=
  match dir with
  | some 0 => flipSign Y
  | some 1 => X
  | some 2 => Y
  | some 3 => flipSign X
  | _ => "undefined".data

/-- Model of `processFourNotationArray` (lines 383-408) over the sliced
argument array (entries are `undefined` for absent optional groups; JS
`Array.prototype.join` renders `undefined` entries as empty). -/
def processFourNotationArray (pointMap : Nat → Option Nat)
    (array : List (Option (List Char))) (turned : Bool) : List Char :=
  let jsAt := fun (i : Nat) => ((array.get? i).join)
  let jsAtOpt := fun (i : Option Nat) => i.bind fun n => (array.get? n).join
  ((array.enum.map fun p =>
    let index := p.1
    let val := p.2
    if index % 2 = 1 then
      if jsTruthy val then val
      else if index = 5 && turned && jsTruthy (jsAt 4) then some " ".data
      else some []
    else
      if !(jsTruthy val) then
        if index = 6 && turned && jsTruthy (jsAt 4) then
          jsAtOpt ((pointMap (index / 2)).map (· * 2))
        else some []
      else
        let a1 := jsAtOpt ((pointMap (index / 2)).map (· * 2))
        let a2 := jsAt ((i32 ((pointMap (index / 2)).map (· * 2))) ^^^ 4)
        if jsTruthy a1 then a1 else if jsTruthy a2 then a2 else jsAt 0
  ).map fun o => o.getD []).flatten

/-- `(m.caps n) || the empty string` — capture access where the source
concatenates a group that always participates (or explicitly defaults it). -/
def capD (m : MatchData) (n : Nat) : List Char := (m.caps n).getD []

/-- Per-call context shared by the replacement callbacks: the solved
orientation descriptor and its `swapText` table. -/
structure Ctx where
  d : Descriptor
  tm : TextMap

/-- Callback of `positionFormat` (src/cssjanus.js lines 547-585); the state
triple carries the mutable (xPos, yPos, space1). -/
def positionFormatCb (d : Descriptor) (m : MatchData) : List Char :=
  let pre := capD m 1
  let xPos0 := m.caps 2
  let xEdge := m.caps 3
  let space0 := m.caps 4
  let yPos0 := m.caps 5
  let yEdge := m.caps 6
  let slash := m.caps 7
  let sizeX := m.caps 8
  let sizeSpace := m.caps 9
  let sizeY := m.caps 10
  let st :=
    if !(jsTruthy xEdge) || !(jsTruthy yEdge) then
      let st1 :=
        if !(jsTruthy yPos0) then
          if d.quarterTurned && !(jsTruthy xEdge) then (xPos0, some "center".data, some " ".data)
          else (xPos0, some ([] : List Char), some ([] : List Char))
        else
          if !(jsTruthy yEdge) && d.flipY then
            (xPos0, some (flipPositionValue (yPos0.getD [])), space0)
          else (xPos0, yPos0, space0)
      if !(jsTruthy xEdge) && d.flipX then
        (some (flipPositionValue (st1.1.getD [])), st1.2.1, st1.2.2)
      else st1
    else (xPos0, yPos0, space0)
  let position :=
    if d.quarterTurned then (st.2.1.getD []) ++ (st.2.2.getD []) ++ (st.1.getD [])
    else (st.1.getD []) ++ (st.2.2.getD []) ++ (st.2.1.getD [])
  pre ++ position ++
    (if jsTruthy sizeY then
      (slash.getD []) ++
        (if d.quarterTurned then (sizeY.getD []) ++ (sizeSpace.getD []) ++ (sizeX.getD [])
         else (sizeX.getD []) ++ (sizeSpace.getD []) ++ (sizeY.getD []))
     else [])

/-- `positionFormat` (line 547): rewrite each position-values match. -/
def positionFormat (d : Descriptor) (val : List Char) : List Char :=
  jsReplaceRe positionValuesRegExp (positionFormatCb d) val

/-- The floating-point angle recomputation of the linear-gradient callback
(lines 762-782 past the early return): IEEE-double arithmetic
(`parseFloat`, `%`, `toFixed`) is kept abstract as a parameter of the
pipeline, since no claim depends on its value. -/
structure GradMath where
  recompute : Descriptor → MatchData → List Char

/-- Callback of the `linearGradientRegExp` pass (lines 761-783): the guard
`angleQuantFloat === 0 && angleUnitText` returns the match unchanged, the
else-branch recomputes the angle. -/
def lgCallback (gm : GradMath) (d : Descriptor) (m : MatchData) : List Char :=
  let angleQuant := m.caps 2
  let angleUnitText := m.caps 3
  if parseFloatIsZero ((jsOrStr (angleQuant.map String.mk) "180").data) && jsTruthy angleUnitText
  then m.text
  else gm.recompute d m

/-- A trivial concrete angle recomputation (returns the match unchanged),
used to instantiate the pipeline on inputs that never reach the branch. -/
def gm0 : GradMath := ⟨fun _ m => m.text⟩

/-- `fourNotation` (lines 543-545): `arguments` 2-8 are groups 2-8. -/
def fourNotationCb (d : Descriptor) (m : MatchData) : List Char :=
  capD m 1 ++
    processFourNotationArray d.sideMap ((List.range 7).map fun i => m.caps (2 + i))
      d.quarterTurned ++
    capD m 9

/-- Callback of the `sidesRegExp` pass (lines 687-699). -/
def sidesCb (ctx : Ctx) (m : MatchData) : List Char :=
  let pfx := capD m 1
  let dontRotate := m.caps 2
  let suppressChange := m.caps 3
  let side := m.caps 4
  if jsTruthy dontRotate then
    pfx ++ (dontRotate.getD []) ++
      (let ls := lowerStr (side.getD [])
       if !(jsTruthy suppressChange) && ctx.d.dirFlipped then
         if ls = "right".data then "left".data
         else if ls = "left".data then "right".data
         else side.getD []
       else side.getD [])
  else pfx ++ swapTextF ctx.tm side

/-- Callback of the `cursorRegExp` pass (lines 701-710). -/
def cursorCb (ctx : Ctx) (m : MatchData) : List Char :=
  let ns := m.caps 2
  let ew := m.caps 3
  let otherCursor := m.caps 4
  capD m 1 ++
    (if jsTruthy otherCursor then swapTextF ctx.tm otherCursor
     else
       swapTextF ctx.tm (if ctx.d.quarterTurned then ew else ns) ++
         swapTextF ctx.tm (if ctx.d.quarterTurned then ns else ew) ++ "-resize".data)

/-- Callback of the `borderRadiusRegExp` pass (lines 712-719). -/
def borderRadiusCb (ctx : Ctx) (m : MatchData) : List Char :=
  let preSlash := processFourNotationArray ctx.d.cornersMap
    ((List.range 7).map fun i => m.caps (2 + i)) ctx.d.cornersFlipped
  let slash := capD m 9
  let postSlash := processFourNotationArray ctx.d.cornersMap
    ((List.range 7).map fun i => m.caps (10 + i)) ctx.d.cornersFlipped
  capD m 1 ++
    (if ctx.d.quarterTurned then postSlash ++ slash ++ preSlash
     else preSlash ++ slash ++ postSlash) ++
    capD m 17

/-- Callback of the `shadowRegExp` pass (lines 721-726). -/
def shadowCb (ctx : Ctx) (m : MatchData) : List Char :=
  capD m 1 ++
    jsReplaceRe shadowValueRegExp
      (fun m2 =>
        let X := capD m2 2
        let Y := capD m2 4
        capD m2 1 ++
          (flipXYPositions (ctx.d.sideMap 1) X Y ++ capD m2 3 ++
            flipXYPositions (ctx.d.sideMap 2) X Y) ++
          capD m2 5)
      (capD m 2)

/-- Callback of the `bgRegExp` pass (lines 733-740). -/
def bgCb (ctx : Ctx) (m : MatchData) : List Char :=
  let val := capD m 3
  let val := if ctx.d.quarterTurned then
      jsReplaceRe bgRepeatValueRegExp backgroundTwoPointSwapCb val
    else val
  swapTextF ctx.tm (m.caps 1) ++ capD m 2 ++ positionFormat ctx.d val

/-- Callback of the `bgXYRegExp` pass (lines 742-758). -/
def bgXYCb (ctx : Ctx) (m : MatchData) : List Char :=
  let prop := m.caps 1
  let space := m.caps 2
  swapTextF ctx.tm prop ++
    (if jsTruthy space then
      (space.getD []) ++
        jsReplaceRe bgPositionSingleValueRegExp
          (fun m2 =>
            let position := capD m2 2
            capD m2 1 ++
              (if (if lowerStr (prop.getD []) = "background-position-x".data then ctx.d.flipX
                   else ctx.d.flipY)
               then flipPositionValue position else position))
          (capD m 3) ++
        capD m 4
     else [])

/-- Callback of the `radialGradientRegExp` pass (lines 784-794). -/
def radialGradientCb (ctx : Ctx) (m : MatchData) : List Char :=
  let shape := capD m 2
  let position := m.caps 3
  let shape := if hasSub "ellipse".data shape && ctx.d.quarterTurned then
      jsReplaceTpl twoQuantsRegExp "$3$2$1".data shape
    else shape
  let position := if jsTruthy position then positionFormat ctx.d (position.getD []) else []
  capD m 1 ++ shape ++ position ++ capD m 4

/-- Callback of the `borderImageRegExp` pass (lines 797-805). -/
def borderImageCb (ctx : Ctx) (m : MatchData) : List Char :=
  capD m 1 ++
    processFourNotationArray ctx.d.sideMap ((List.range 7).map fun i => m.caps (2 + i))
      ctx.d.quarterTurned ++ capD m 9 ++
    processFourNotationArray ctx.d.sideMap ((List.range 7).map fun i => m.caps (10 + i))
      ctx.d.quarterTurned ++ capD m 17 ++
    processFourNotationArray ctx.d.sideMap ((List.range 7).map fun i => m.caps (18 + i))
      ctx.d.quarterTurned

/-- JS array read `vals[i]` (beyond-length reads give `undefined`). -/
def arrGet (l : List (List Char)) (i : Nat) : Option (List Char) := l.get? i

/-- JS array write `vals[i] = v`; a write one past the end extends the array
(further holes, unreachable for split results, are modelled as empty). -/
def arrSet (l : List (List Char)) (i : Nat) (v : List Char) : List (List Char) :=
  if i < l.length then l.set i v
  else l ++ List.replicate (i - l.length) [] ++ [v]

/-- `vals[i] = flipSign(vals[i])`; an out-of-range read, which in JS would
throw inside `flipSign`, is modelled as flipping the `undefined` string
(unreachable on CSS-valid argument lists). -/
def flipVals (l : List (List Char)) (i : Nat) : List (List Char) :=
  arrSet l i (flipSign ((arrGet l i).getD "undefined".data))

/-- The shared `scale`/fall-through tail of the switch (lines 878-882):
swap the first two arguments when quarter-turned, defaulting the new first
argument. -/
def scaleSwap (d : Descriptor) (vals : List (List Char)) (fb : List Char) :
    List (List Char) :=
  if d.quarterTurned then
    let old0 := (arrGet vals 0).getD "undefined".data
    let old1 := arrGet vals 1
    let vals := arrSet vals 1 old0
    arrSet vals 0 (match old1 with
      | some v => if v ≠ [] then v else fb
      | none => fb)
  else vals

/-- The argument-rewriting switch of the transform-function callback
(lines 822-930); `none` models the early `return match` of `rotate3d` with a
wrong argument count. -/
def transformSwitch (d : Descriptor) (lcFnName : List Char) (vals : List (List Char)) :
    Option (List (List Char)) :=
  let translateScale := fun (vals : List (List Char)) (isR3d : Bool) =>
    let vals := if (if isR3d then d.flipY ^^ d.quarterTurned else d.flipX) then
        flipVals vals 0
      else vals
    let vals :=
      if (if isR3d then d.flipX ^^ d.quarterTurned else d.flipY && jsTruthy (arrGet vals 1))
      then flipVals vals 1
      else vals
    some (scaleSwap d vals "0".data)
  if lcFnName = "rotate3d".data then
    if vals.length ≠ 4 then none
    else
      let vals := if d.reflected then flipVals vals 2 else vals
      translateScale vals true
  else if lcFnName = "translate".data || lcFnName = "translate3d".data then
    translateScale vals false
  else if lcFnName = "skew".data || lcFnName = "skewx".data || lcFnName = "skewy".data then
    let vals :=
      if d.flipX ^^ d.flipY then
        let vals := flipVals vals 0
        if lcFnName = "skew".data && jsTruthy (arrGet vals 1) then flipVals vals 1 else vals
      else vals
    if lcFnName ≠ "skew".data then some vals
    else some (scaleSwap d vals "0".data)
  else if lcFnName = "scale".data || lcFnName = "scale3d".data then
    some (scaleSwap d vals "1".data)
  else if lcFnName = "rotate".data || lcFnName = "rotatez".data then
    some (if d.reflected then flipVals vals 0 else vals)
  else if lcFnName = "translatex".data || lcFnName = "translatey".data then
    some (if (if lcFnName.getLast? = some 'x' then d.flipX else d.flipY) then
        flipVals vals 0
      else vals)
  else if lcFnName = "rotatex".data || lcFnName = "rotatey".data then
    some (if ((if lcFnName.getLast? = some 'x' then d.flipY else d.flipX) ^^ d.quarterTurned)
      then flipVals vals 0
      else vals)
  else if lcFnName = "matrix".data then
    let newVals := vals
    let newVals := if d.flipX then
        arrSet newVals 4 (flipSign ((arrGet vals 4).getD "undefined".data))
      else newVals
    let newVals := if d.flipY then
        arrSet newVals 5 (flipSign ((arrGet vals 5).getD "undefined".data))
      else newVals
    let newVals := if d.quarterTurned then
        let nv := arrSet newVals 0 ((arrGet vals 3).getD "undefined".data)
        let nv := arrSet nv 3 ((arrGet vals 0).getD "undefined".data)
        let nv := arrSet nv 1 ((arrGet vals 2).getD "undefined".data)
        let nv := arrSet nv 2 ((arrGet vals 1).getD "undefined".data)
        let o4 := (arrGet nv 4).getD "undefined".data
        let o5 := (arrGet nv 5).getD "undefined".data
        arrSet (arrSet nv 5 o4) 4 o5
      else newVals
    let newVals := if d.flipX ^^ d.flipY then flipVals (flipVals newVals 1) 2 else newVals
    some newVals
  else some vals

/-- The final `vals.reduce` (lines 932-934): join the arguments with the
recorded separators, falling back to a comma-space. -/
def joinVals (vals seps : List (List Char)) : List Char :=
  match vals with
  | [] => []
  | v0 :: rest =>
    v0 ++ (rest.enum.map fun p =>
      (match seps.get? p.1 with
        | some s => if s ≠ [] then s else ", ".data
        | none => ", ".data) ++ p.2).flatten

/-- Inner callback of the transform pass (lines 809-935). -/
def transformFunctionCb (ctx : Ctx) (m : MatchData) : List Char :=
  let lcFnName := lowerStr (capD m 1)
  let newProp := swapTextF ctx.tm (m.caps 1)
  let parts := jsSplitCap1 commaSplitRegExp (capD m 3)
  let vals := ((parts.enum.filter fun p => p.1 % 2 = 0).map fun p => p.2)
  let separators := ((parts.enum.filter fun p => p.1 % 2 = 1).map fun p => p.2)
  match transformSwitch ctx.d lcFnName vals with
  | none => m.text
  | some vals2 => newProp ++ capD m 2 ++ joinVals vals2 separators ++ capD m 4

/-- Callback of the `transformRegExp` pass (lines 807-937). -/
def transformCb (ctx : Ctx) (m : MatchData) : List Char :=
  capD m 1 ++ jsReplaceRe transformFunctionRegExp (transformFunctionCb ctx) (capD m 2) ++
    capD m 3

/-- Callback of the `transformOriginRegExp` pass (lines 938-960). -/
def transformOriginCb (ctx : Ctx) (m : MatchData) : List Char :=
  let v1 := m.caps 4
  let space := m.caps 5
  let v2 := m.caps 6
  let isReverseOrder := if ctx.d.quarterTurned then m.caps 3 else m.caps 2
  let toFlipV1 := if jsTruthy isReverseOrder then ctx.d.flipY else ctx.d.flipX
  let toFlipV2 := if jsTruthy isReverseOrder then ctx.d.flipX else ctx.d.flipY
  let v1 := if toFlipV1 then some (flipPositionValue (v1.getD [])) else v1
  let v2 := if toFlipV2 && jsTruthy v2 then some (flipPositionValue (v2.getD [])) else v2
  let vv := if ctx.d.quarterTurned then
      ((if jsTruthy v2 then v2 else some "center".data), v1)
    else (v1, v2)
  capD m 1 ++
    (if jsTruthy vv.1 && jsTruthy vv.2 then
      (vv.1.getD []) ++ (if jsTruthy space then space.getD [] else " ".data) ++ (vv.2.getD [])
     else (if jsTruthy vv.1 then vv.1 else vv.2).getD "undefined".data)

/-- Callback of the `mediaFeatureRegExp` pass (lines 1000-1002). -/
def mediaFeatureCb (ctx : Ctx) (m : MatchData) : List Char :=
  swapTextF ctx.tm (m.caps 1) ++ capD m 2 ++
    (if jsTruthy (m.caps 4) then capD m 5 ++ capD m 4 ++ capD m 3
     else (m.caps 3).getD "undefined".data)

/-- Inner callback of the `bgSizeRegExp` pass (lines 995-997). -/
def bgSizeValueCb (m : MatchData) : List Char :=
  if lowerStr m.text = "auto".data then m.text
  else (if jsTruthy (m.caps 3) then capD m 3 ++ capD m 2 else "auto ".data) ++ capD m 1

/-- Join string pieces with dashes (`Array.prototype.join('-')`). -/
def joinDash : List (List Char) → List Char
  | [] => []
  | [x] => x
  | x :: rest => x ++ '-' :: joinDash rest

/-- Callback of the `dirInUrlRegExp` pass (lines 666-675). -/
def dirInUrlCb (ctx : Ctx) (m : MatchData) : List Char :=
  capD m 1 ++ joinDash ((splitDash (capD m 2)).map fun p => swapTextF ctx.tm (some p))

/-- The mutable state threaded through the pipeline: the working stylesheet
and the four recorded match lists of the tokenizer instances. -/
structure PipeSt where
  css : List Char
  msSingle : List (List Char)
  msClass : List (List Char)
  msComment : List (List Char)
  msCalc : List (List Char)
deriving DecidableEq

/-- Pipeline stage 1 (src/cssjanus.js lines 650-758): backtick escape,
tokenization, optional URL transforms, and every replacement pass up to and
including `bgXYRegExp`, in source order. -/
def pipelinePre (ctx : Ctx) (options : Options) (css : List Char) : PipeSt :=
  let d := ctx.d
  let css := backtickEscape css
  let r1 := tokenizerRun (reMatcher noFlipSingleRegExp) "`NOFLIP_SINGLE".data "`".data css
  let r2 := tokenizerRun (reMatcher noFlipClassRegExp) "`NOFLIP_CLASS".data "`".data r1.1
  let r3 := tokenizerRun (reMatcher commentRegExp) "`COMMENT".data "`".data r2.1
  let r4 := calcTokenize r3.1
  let css := r4.1
  let css := if options.transformDirInUrl then
      jsReplaceRe dirInUrlRegExp (dirInUrlCb ctx) css
    else css
  let css := if options.transformEdgeInUrl then
      jsReplaceRe edgeInUrlRegExp (fun m => capD m 1 ++ swapTextF ctx.tm (m.caps 2)) css
    else css
  let css := jsReplaceRe sidesRegExp (sidesCb ctx) css
  let css := jsReplaceRe cursorRegExp (cursorCb ctx) css
  let css := jsReplaceRe borderRadiusRegExp (borderRadiusCb ctx) css
  let css := jsReplaceRe shadowRegExp (shadowCb ctx) css
  let css := jsReplaceRe fourNotationQuantRegExp (fourNotationCb d) css
  let css := jsReplaceRe fourNotationLineWidthRegExp (fourNotationCb d) css
  let css := jsReplaceRe fourNotationColorRegExp (fourNotationCb d) css
  let css := jsReplaceRe bgRegExp (bgCb ctx) css
  let css := jsReplaceRe bgXYRegExp (bgXYCb ctx) css
  ⟨css, r1.2, r2.2, r3.2, r4.2⟩

/-- Pipeline stage 2 (src/cssjanus.js lines 784-1018): every replacement pass
after the linear-gradient one, in source order, then detokenization. -/
def pipelinePost (ctx : Ctx) (st : PipeSt) : List Char :=
  let d := ctx.d
  let css := st.css
  let css := jsReplaceRe radialGradientRegExp (radialGradientCb ctx) css
  let css := jsReplaceRe borderImageRegExp (borderImageCb ctx) css
  let css := jsReplaceRe transformRegExp (transformCb ctx) css
  let css := jsReplaceRe transformOriginRegExp (transformOriginCb ctx) css
  let css := jsReplaceRe perspectiveOriginRegExp
    (fun m => capD m 1 ++ positionFormat d (capD m 2)) css
  let css := jsReplaceRe writingModeRegExp
    (fun m => capD m 1 ++ swapTextF ctx.tm (m.caps 2) ++ '-' ::
      swapTextF ctx.tm (m.caps 3)) css
  let css := if d.dirFlipped then
      jsReplaceRe directionRegExp (fun m => capD m 1 ++ swapTextF ctx.tm (m.caps 2)) css
    else css
  let css := if d.quarterTurned then
      let css := jsReplaceRe resizeRegExp
        (fun m => capD m 1 ++ swapTextF ctx.tm (m.caps 2)) css
      let css := jsReplaceRe xyPropRegExp
        (fun m => capD m 1 ++ '-' :: swapTextF ctx.tm (m.caps 2)) css
      let css := jsReplaceRe sizeRegExp
        (fun m => capD m 1 ++ swapTextF ctx.tm (m.caps 2)) css
      let css := jsReplaceRe bgRepeatRegExp
        (fun m => capD m 1 ++
          jsReplaceRe bgRepeatValueRegExp backgroundTwoPointSwapCb (capD m 2) ++ capD m 3) css
      let css := jsReplaceRe bgSizeRegExp
        (fun m => capD m 1 ++ jsReplaceRe twoQuantsRegExp bgSizeValueCb (capD m 2)) css
      let css := jsReplaceRe mediaQueryRegExp
        (fun m => capD m 1 ++
          jsReplaceRe mediaOrientationRegExp
            (fun m2 => capD m2 1 ++ swapTextF ctx.tm (m2.caps 2))
            (jsReplaceRe mediaFeatureRegExp (mediaFeatureCb ctx) (capD m 2)) ++
          capD m 3) css
      let css := jsReplaceTpl borderImageRepeatRegExp "$1$4$3$2".data css
      jsReplaceTpl borderRadiusSingleCornerRegExp "border-$2-$1-radius$3$6$5$4".data css
    else css
  tokenizerDetok "`NOFLIP_SINGLE".data "`".data st.msSingle
    (tokenizerDetok "`NOFLIP_CLASS".data "`".data st.msClass
      (tokenizerDetok "`COMMENT".data "`".data st.msComment
        (calcDetokenize st.msCalc css)))

/-- Solve the orientation and build the swap table for a direction pair
(src/cssjanus.js lines 450-541). -/
def ctxOf (sourceDir targetDir : String) : Ctx :=
  ⟨solve sourceDir targetDir, buildTextMap (solve sourceDir targetDir)⟩

/-- The full rewrite pipeline of `transform` for unequal directions
(src/cssjanus.js lines 450-1020): solve the orientation, run stage 1, the
linear-gradient pass, then stage 2. -/
def pipelineFull (gm : GradMath) (options : Options) (sourceDir targetDir : String)
    (css : List Char) : List Char :=
  let ctx := ctxOf sourceDir targetDir
  let st := pipelinePre ctx options css
  pipelinePost ctx
    { st with css := jsReplaceRe linearGradientRegExp (lgCallback gm ctx.d) st.css }

/-- `cssjanus.transform` with the full pipeline plugged in, parametric over
the abstract gradient-angle arithmetic. -/
def transformFull (gm : GradMath) (css : List Char) (options : Options) : List Char :=
  transform (fun sd td o c => pipelineFull gm o sd td c) css options

set_option maxRecDepth 200000 in
set_option maxHeartbeats 4000000 in
/-- C7: the claimed rewrite `padding: 1px 2px 3px 4px` into
`padding: 1px 4px 3px 2px` does NOT happen on the claim's exact input text:
`fourNotationQuantRegExp` ends in `suffixPattern`, which requires a `;` or `}`
after the values, so the terminator-less declaration is returned unchanged by
the whole default transform. -/
theorem padding_fourNotation_requires_terminator :
    transformFull gm0 "padding: 1px 2px 3px 4px".data {} =
      "padding: 1px 2px 3px 4px".data ∧
    transformFull gm0 "padding: 1px 2px 3px 4px".data {} ≠
      "padding: 1px 4px 3px 2px".data := by
  have h : transformFull gm0 "padding: 1px 2px 3px 4px".data {} =
      "padding: 1px 2px 3px 4px".data := by rfl
  exact ⟨h, fun hc => absurd (h.symm.trans hc) (by decide)⟩

set_option maxRecDepth 10000 in
/-- With no options set, `transform` runs the pipeline for the default
direction pair. -/
theorem transformFull_default (gm : GradMath) (css : List Char) :
    transformFull gm css {} = pipelineFull gm {} "lr-tb" "rl-tb" css := by
  simp only [transformFull, transform, jsOrStr]
  rw [if_neg (by decide : ¬ ("lr-tb" : String) = "rl-tb")]

set_option maxRecDepth 10000 in
/-- The pipeline is stage 1, the linear-gradient pass on the working
stylesheet, then stage 2. -/
theorem pipelineFull_split (gm : GradMath) (o : Options) (sd td : String)
    (css : List Char) :
    pipelineFull gm o sd td css =
      pipelinePost (ctxOf sd td)
        { pipelinePre (ctxOf sd td) o css with
          css := jsReplaceRe linearGradientRegExp (lgCallback gm (ctxOf sd td).d)
            (pipelinePre (ctxOf sd td) o css).css } := by
  simp only [pipelineFull]

set_option maxRecDepth 200000 in
set_option maxHeartbeats 4000000 in
/-- C7 (amended): with default options, once the declaration is terminated
(`padding: 1px 2px 3px 4px;`) the full transform repositions the four values
per `sideMap`, giving `padding: 1px 4px 3px 2px;` — for every instantiation of
the abstract gradient-angle arithmetic, which this input never reaches. -/
theorem padding_fourNotation_flip (gm : GradMath) :
    transformFull gm "padding: 1px 2px 3px 4px;".data {} =
      "padding: 1px 4px 3px 2px;".data := by
  have h1 : pipelinePre (ctxOf "lr-tb" "rl-tb") {} "padding: 1px 2px 3px 4px;".data =
      ⟨"padding: 1px 4px 3px 2px;".data, [], [], [], []⟩ := by rfl
  have h2 : scanSegs linearGradientRegExp "padding: 1px 4px 3px 2px;".data =
      ([], "padding: 1px 4px 3px 2px;".data) := by rfl
  have h3 : pipelinePost (ctxOf "lr-tb" "rl-tb")
      ⟨"padding: 1px 4px 3px 2px;".data, [], [], [], []⟩ =
      "padding: 1px 4px 3px 2px;".data := by rfl
  have h4 : jsReplaceRe linearGradientRegExp (lgCallback gm (ctxOf "lr-tb" "rl-tb").d)
      "padding: 1px 4px 3px 2px;".data = "padding: 1px 4px 3px 2px;".data := by
    simp only [jsReplaceRe, h2]
    simp
  rw [transformFull_default, pipelineFull_split, h1]
  show pipelinePost (ctxOf "lr-tb" "rl-tb")
      ⟨jsReplaceRe linearGradientRegExp (lgCallback gm (ctxOf "lr-tb" "rl-tb").d)
        "padding: 1px 4px 3px 2px;".data, [], [], [], []⟩ = _
  rw [h4]
  exact h3

theorem padding_fourNotation_flip_witness :
    transformFull gm0 "padding: 1px 2px 3px 4px;".data {} =
      "padding: 1px 4px 3px 2px;".data :=
  padding_fourNotation_flip gm0

/-- C8: every linear-gradient match whose explicit angle parses to exactly 0
and carries an explicit unit is returned unchanged by the gradient pass (the
early `return match` of lines 769-772 fires before any recomputation), for
every descriptor and every instantiation of the abstract angle arithmetic:
if all matches of `linearGradientRegExp` in a stylesheet satisfy the guard,
the whole pass is the identity. -/
theorem linearGradient_zero_angle_unchanged (gm : GradMath) (d : Descriptor)
    (s : List Char)
    (h : ∀ pm ∈ (scanSegs linearGradientRegExp s).1,
      (parseFloatIsZero ((jsOrStr ((pm.2.caps 2).map String.mk) "180").data) &&
        jsTruthy (pm.2.caps 3)) = true) :
    jsReplaceRe linearGradientRegExp (lgCallback gm d) s = s := by
  apply jsReplaceRe_id
  intro pm hpm
  simp only [lgCallback]
  rw [if_pos (h pm hpm)]

set_option maxRecDepth 200000 in
set_option maxHeartbeats 1000000 in
theorem linearGradient_zero_angle_unchanged_witness :
    jsReplaceRe linearGradientRegExp (lgCallback gm0 (solve "lr-tb" "rl-tb"))
      "background: linear-gradient(0deg, red, blue);".data =
      "background: linear-gradient(0deg, red, blue);".data :=
  linearGradient_zero_angle_unchanged gm0 (solve "lr-tb" "rl-tb")
    "background: linear-gradient(0deg, red, blue);".data (by decide)

end CssJanus
